import Mathlib

/-!
# STPC chipset register model (`src/chipset/stpc.c`)

Shallow embedding of the STPC system-on-chip emulation: the device record `stpc_t`, the
three indexed port windows (primary ISA window at ports 22h/23h, host-bus window, local-bus
window), the shadow-RAM recalculation engine and the three PCI configuration functions.

Conventions of the embedding.

* `uint8_t`, `uint16_t`, `uint32_t` and `int` values are natural numbers (`func` of the PCI
  callbacks, the only quantity compared against zero as a signed value, is an `Int`).  Where the
  C code narrows a value (an `int` expression passed as a `uint16_t` argument) the
  reduction `% 65536` is written out.
* The 256-entry byte arrays are total maps `Nat → Nat`; every index the code forms from a
  `uint8_t` is below 256.  The one store whose index is a `uint16_t` port number
  (`stpc_localbus_write`) returns `none` when the index leaves the array.
* Calls into the collaborators (memory map, port dispatcher, PCI bus) are appended, oldest
  first, to the call list `Globals.calls`; the global flags `shadowbios`,
  `shadowbios_write` and the `smram[0]` descriptor live in `Globals` as well.
* `stpc_log` only writes to the log and is left out.
* The `MEM_*` access-state constants come from a header that is not part of the sources at
  hand; they are the parameter `MemFlags`.
-/

namespace Stpc

/-- Port handler pairs registered with the port dispatcher. -/
inductive Handler where
  | isa
  | host
  | localbus
deriving DecidableEq, Repr

/-- PCI configuration callbacks registered with the PCI bus. -/
inductive PciFn where
  | nb
  | sb
  | ide
deriving DecidableEq, Repr

/-- Collaborator calls made by the chipset code, with their numeric arguments. -/
inductive Call where
  | mem_set_mem_state (base size state : Nat)
  | flushmmucache
  | mem_set_mem_state_smram (smm addr size is_smram : Nat)
  | io_removehandler (base size : Nat) (h : Handler)
  | io_sethandler (base size : Nat) (h : Handler)
  | pci_add_card (slot : Nat) (f : PciFn)
  | mem_mapping_set_addr (base size : Nat)
  | mem_mapping_set_exec (ram_offset : Nat)
  | device_add_port_92_pci
deriving DecidableEq, Repr

/-- Access-state constants of the memory collaborator (`MEM_READ_INTERNAL`, ...), taken as a
parameter. -/
structure MemFlags where
  MEM_READ_INTERNAL : Nat
  MEM_READ_EXTANY : Nat
  MEM_WRITE_INTERNAL : Nat
  MEM_WRITE_EXTANY : Nat
deriving DecidableEq, Repr

/-- Global variables read or written by the chipset code, and the list of collaborator calls
made so far. -/
structure Globals where
  shadowbios : Nat
  shadowbios_write : Nat
  smram0_host_base : Nat
  smram0_ram_base : Nat
  smram0_size : Nat
  calls : List Call

/-- The device record `stpc_t`. -/
structure stpc_t where
  isa_offset : Nat
  isa_regs : Nat → Nat
  host_base : Nat
  host_offset : Nat
  host_regs : Nat → Nat
  localbus_base : Nat
  localbus_offset : Nat
  localbus_regs : Nat → Nat
  pci_conf : Nat → Nat → Nat

/-- Store `pci_conf[k][a] = v`. -/
def pci_store (conf : Nat → Nat → Nat) (k a v : Nat) : Nat → Nat → Nat :=
  Function.update conf k (Function.update (conf k) a v)

/-- Append one collaborator call. -/
def Globals.emit (g : Globals) (c : Call) : Globals :=
  { g with calls := g.calls ++ [c] }

/-! ## Shadow recalculation engine -/

/-- One pass through the body of the inner loop of `stpc_recalcmapping`. -/
def recalc_iter (K : MemFlags) (dev : stpc_t) (reg bitpair : Nat) (g : Globals) : Globals :=
  let size := if reg = 3 then 0x10000 else 0x4000
  let base := if reg = 3 then 0xf0000 else 0xc0000 + (size * ((reg * 4) + bitpair))
  let state := 0
  let w_on : Bool := decide (dev.isa_regs (0x25 + reg) &&& (1 <<< (bitpair * 2)) ≠ 0)
  let state := if w_on then state ||| K.MEM_WRITE_INTERNAL else state ||| K.MEM_WRITE_EXTANY
  let g := if w_on then
      (if base ≥ 0xe0000 then { g with shadowbios_write := g.shadowbios_write ||| 1 } else g)
    else g
  let r_on : Bool := decide (dev.isa_regs (0x25 + reg) &&& (1 <<< ((bitpair * 2) + 1)) ≠ 0)
  let state := if r_on then state ||| K.MEM_READ_INTERNAL else state ||| K.MEM_READ_EXTANY
  let g := if r_on then
      (if base ≥ 0xe0000 then { g with shadowbios := g.shadowbios ||| 1 } else g)
    else g
  g.emit (Call.mem_set_mem_state base size state)

/-- The function `stpc_recalcmapping`: `reg` runs over 0..3 and `bitpair` over
0..(reg == 3 ? 0 : 3). -/
def stpc_recalcmapping (K : MemFlags) (dev : stpc_t) (g : Globals) : Globals :=
  let g := { g with shadowbios := 0, shadowbios_write := 0 }
  let g := (List.range 4).foldl
    (fun g reg =>
      (List.range ((if reg = 3 then 0 else 3) + 1)).foldl
        (fun g bitpair => recalc_iter K dev reg bitpair g) g)
    g
  g.emit Call.flushmmucache

/-- The function `stpc_smram_map`. -/
def stpc_smram_map (g : Globals) (smm addr size is_smram : Nat) : Globals :=
  g.emit (Call.mem_set_mem_state_smram smm addr size is_smram)

/-! ## Host-bus and local-bus windows -/

/-- The function `stpc_host_write`. -/
def stpc_host_write (dev : stpc_t) (addr val : Nat) : stpc_t :=
  if addr = dev.host_base then
    { dev with host_offset := val }
  else if addr = dev.host_base + 4 then
    { dev with host_regs := Function.update dev.host_regs dev.host_offset val }
  else dev

/-- The function `stpc_host_read`. -/
def stpc_host_read (dev : stpc_t) (addr : Nat) : Nat :=
  if addr = dev.host_base then
    dev.host_offset
  else if addr = dev.host_base + 4 then
    dev.host_regs dev.host_offset
  else
    0xff

/-- The function `stpc_localbus_write`.  The data-port store is `localbus_regs[addr]`, indexed
by the 16-bit port number; the result is `none` when that index is outside the 256-entry
array. -/
def stpc_localbus_write (dev : stpc_t) (addr val : Nat) : Option stpc_t :=
  if addr = dev.localbus_base then
    some { dev with localbus_offset := val }
  else if addr = dev.localbus_base + 4 then
    (if addr < 256 then
      some { dev with localbus_regs := Function.update dev.localbus_regs addr val }
    else none)
  else some dev

/-- The function `stpc_localbus_read`. -/
def stpc_localbus_read (dev : stpc_t) (addr : Nat) : Nat :=
  if addr = dev.localbus_base then
    dev.localbus_offset
  else if addr = dev.localbus_base + 4 then
    dev.localbus_regs dev.localbus_offset
  else
    0xff

/-! ## PCI configuration functions -/

/-- The function `stpc_nb_write`. -/
def stpc_nb_write (dev : stpc_t) (func : Int) (addr val : Nat) : stpc_t :=
  if func > 0 then dev
  else if addr = 0x00 ∨ addr = 0x01 ∨ addr = 0x02 ∨ addr = 0x03 ∨
      addr = 0x04 ∨ addr = 0x06 ∨ addr = 0x07 ∨ addr = 0x08 ∨
      addr = 0x09 ∨ addr = 0x0a ∨ addr = 0x0b ∨ addr = 0x0e ∨
      addr = 0x51 ∨ addr = 0x53 ∨ addr = 0x54 then dev
  else
    let val :=
      if addr = 0x05 then val &&& 0x01
      else if addr = 0x50 then val &&& 0x1f
      else if addr = 0x52 then val &&& 0x70
      else val
    { dev with pci_conf := pci_store dev.pci_conf 0 addr val }

/-- The function `stpc_nb_read`. -/
def stpc_nb_read (dev : stpc_t) (func : Int) (addr : Nat) : Nat :=
  if func > 0 then 0xff else dev.pci_conf 0 addr

/-- The function `stpc_sb_write`. -/
def stpc_sb_write (dev : stpc_t) (func : Int) (addr val : Nat) : stpc_t :=
  if func > 0 then dev
  else if addr = 0x00 ∨ addr = 0x01 ∨ addr = 0x02 ∨ addr = 0x03 ∨
      addr = 0x04 ∨ addr = 0x06 ∨ addr = 0x07 ∨ addr = 0x08 ∨
      addr = 0x09 ∨ addr = 0x0a ∨ addr = 0x0b ∨ addr = 0x0e then dev
  else
    let val := if addr = 0x05 then val &&& 0x01 else val
    { dev with pci_conf := pci_store dev.pci_conf 1 addr val }

/-- The function `stpc_sb_read`. -/
def stpc_sb_read (dev : stpc_t) (func : Int) (addr : Nat) : Nat :=
  if func > 0 then 0xff else dev.pci_conf 1 addr

/-- The function `stpc_ide_write`. -/
def stpc_ide_write (dev : stpc_t) (func : Int) (addr val : Nat) : stpc_t :=
  if func > 0 then dev
  else if addr = 0x00 ∨ addr = 0x01 ∨ addr = 0x02 ∨ addr = 0x03 ∨
      addr = 0x04 ∨ addr = 0x06 ∨ addr = 0x07 ∨ addr = 0x08 ∨
      addr = 0x09 ∨ addr = 0x0a ∨ addr = 0x0b ∨ addr = 0x0e then dev
  else
    let val := if addr = 0x05 then val &&& 0x01 else val
    { dev with pci_conf := pci_store dev.pci_conf 2 addr val }

/-- The function `stpc_ide_read`. -/
def stpc_ide_read (dev : stpc_t) (func : Int) (addr : Nat) : Nat :=
  if func > 0 then 0xff else dev.pci_conf 2 addr

/-! ## Window relocation and the primary ISA window -/

/-- The function `stpc_remap_host`; `host_base` is the `uint16_t` argument. -/
def stpc_remap_host (dev : stpc_t) (g : Globals) (host_base : Nat) : stpc_t × Globals :=
  let g := g.emit (Call.io_removehandler dev.host_base 5 Handler.host)
  let g := if host_base ≠ 0 then g.emit (Call.io_sethandler host_base 5 Handler.host) else g
  ({ dev with host_base := host_base }, g)

/-- The function `stpc_remap_localbus`; `localbus_base` is the `uint16_t` argument. -/
def stpc_remap_localbus (dev : stpc_t) (g : Globals) (localbus_base : Nat) :
    stpc_t × Globals :=
  let g := g.emit (Call.io_removehandler dev.localbus_base 5 Handler.localbus)
  let g := if localbus_base ≠ 0 then
      g.emit (Call.io_sethandler localbus_base 5 Handler.localbus)
    else g
  ({ dev with localbus_base := localbus_base }, g)

/-- The `switch (dev->isa_offset)` of `stpc_isa_write`: device, globals and the possibly masked
`val` at the point after the switch. -/
def isa_write_switch (K : MemFlags) (dev : stpc_t) (g : Globals) (val : Nat) :
    stpc_t × Globals × Nat :=
  if dev.isa_offset = 0x12 then
    if dev.isa_regs 0x10 = 0x07 then
      let r := stpc_remap_host dev g (((dev.host_base &&& 0xff00) ||| val) % 65536)
      (r.1, r.2, val)
    else if dev.isa_regs 0x10 = 0x06 then
      let r := stpc_remap_localbus dev g (((dev.localbus_base &&& 0xff00) ||| val) % 65536)
      (r.1, r.2, val)
    else (dev, g, val)
  else if dev.isa_offset = 0x13 then
    if dev.isa_regs 0x10 = 0x07 then
      let r := stpc_remap_host dev g (((dev.host_base &&& 0x00ff) ||| (val <<< 8)) % 65536)
      (r.1, r.2, val)
    else if dev.isa_regs 0x10 = 0x06 then
      let r := stpc_remap_localbus dev g
        (((dev.localbus_base &&& 0x00ff) ||| (val <<< 8)) % 65536)
      (r.1, r.2, val)
    else (dev, g, val)
  else if dev.isa_offset = 0x21 then
    (dev, g, val &&& 0xfe)
  else if dev.isa_offset = 0x22 then
    (dev, g, val &&& 0x7f)
  else if dev.isa_offset = 0x25 ∨ dev.isa_offset = 0x26 ∨ dev.isa_offset = 0x27 ∨
      dev.isa_offset = 0x28 then
    let val := if dev.isa_offset = 0x28 then val &&& 0xe3 else val
    let g := if dev.isa_offset = 0x28 then
        stpc_smram_map g 0 g.smram0_host_base g.smram0_size
          (if val &&& 0x80 ≠ 0 then 1 else 0)
      else g
    let dev := { dev with isa_regs := Function.update dev.isa_regs dev.isa_offset val }
    (dev, stpc_recalcmapping K dev g, val)
  else if dev.isa_offset = 0x29 then
    (dev, g, val &&& 0x0f)
  else if dev.isa_offset = 0x36 then
    (dev, g, val &&& 0x3f)
  else (dev, g, val)

/-- The function `stpc_isa_write`. -/
def stpc_isa_write (K : MemFlags) (dev : stpc_t) (g : Globals) (addr val : Nat) :
    stpc_t × Globals :=
  if addr = 0x22 then
    ({ dev with isa_offset := val }, g)
  else
    let r := isa_write_switch K dev g val
    ({ r.1 with isa_regs := Function.update r.1.isa_regs r.1.isa_offset r.2.2 }, r.2.1)

/-- The function `stpc_isa_read`. -/
def stpc_isa_read (dev : stpc_t) (addr : Nat) : Nat :=
  if addr = 0x22 then dev.isa_offset else dev.isa_regs dev.isa_offset

/-! ## Reset, setup and construction -/

/-- The function `stpc_reset`. -/
def stpc_reset (dev : stpc_t) (g : Globals) : stpc_t × Globals :=
  let regs : Nat → Nat := fun _ => 0
  let regs := Function.update regs 0x7b 0xff
  let g := g.emit (Call.io_removehandler 0x22 2 Handler.isa)
  let g := g.emit (Call.io_sethandler 0x22 2 Handler.isa)
  ({ dev with isa_regs := regs }, g)

/-- The configuration-space bytes stored by `stpc_setup`, in source order, as
`(function, address, value)`. -/
def setup_bytes : List (Nat × Nat × Nat) :=
  [ (0, 0x00, 0x4a), (0, 0x01, 0x10), (0, 0x02, 0x0a), (0, 0x03, 0x02),
    (0, 0x04, 0x07),
    (0, 0x06, 0x80), (0, 0x07, 0x02),
    (0, 0x0b, 0x06),
    (1, 0x00, 0x4a), (1, 0x01, 0x10), (1, 0x02, 0x10), (1, 0x03, 0x02),
    (1, 0x04, 0x0f),
    (1, 0x06, 0x80), (1, 0x07, 0x02),
    (1, 0x0a, 0x01), (1, 0x0b, 0x06),
    (1, 0x0e, 0x40),
    (2, 0x00, 0x4a), (2, 0x01, 0x10), (2, 0x02, 0x10), (2, 0x03, 0x02),
    (2, 0x06, 0x80), (2, 0x07, 0x02),
    (2, 0x09, 0x8a), (2, 0x0a, 0x01), (2, 0x0b, 0x01),
    (2, 0x0e, 0x40),
    (2, 0x10, 0x01), (2, 0x14, 0x01), (2, 0x18, 0x01), (2, 0x1c, 0x01),
    (2, 0x40, 0x60), (2, 0x41, 0x97), (2, 0x42, 0x60), (2, 0x43, 0x97),
    (2, 0x44, 0x60), (2, 0x45, 0x97), (2, 0x46, 0x60), (2, 0x47, 0x97) ]

/-- The all-zero record left by `memset(dev, 0, sizeof(stpc_t))`. -/
def stpc_zero : stpc_t :=
  { isa_offset := 0, isa_regs := fun _ => 0,
    host_base := 0, host_offset := 0, host_regs := fun _ => 0,
    localbus_base := 0, localbus_offset := 0, localbus_regs := fun _ => 0,
    pci_conf := fun _ _ => 0 }

/-- The function `stpc_setup`: clears the record, then stores the identity bytes.  The result
does not depend on the previous contents of the record. -/
def stpc_setup : stpc_t :=
  { stpc_zero with
    pci_conf := setup_bytes.foldl (fun conf e => pci_store conf e.1 e.2.1 e.2.2)
      stpc_zero.pci_conf }

/-- The function `stpc_init`, on the freshly allocated record. -/
def stpc_init (g : Globals) : stpc_t × Globals :=
  let g := g.emit (Call.pci_add_card 0x0B PciFn.nb)
  let g := g.emit (Call.pci_add_card 0x0C PciFn.sb)
  let g := g.emit (Call.pci_add_card 0x0D PciFn.ide)
  let dev := stpc_setup
  let r := stpc_reset dev g
  let dev := r.1
  let g := r.2
  let g := { g with smram0_host_base := 0x000a0000, smram0_ram_base := 0x000a0000,
                    smram0_size := 0x00020000 }
  let g := g.emit (Call.mem_mapping_set_addr g.smram0_host_base g.smram0_size)
  let g := g.emit (Call.mem_mapping_set_exec g.smram0_ram_base)
  let g := stpc_smram_map g 0 g.smram0_host_base g.smram0_size 0
  let g := stpc_smram_map g 1 g.smram0_host_base g.smram0_size 1
  let g := g.emit Call.device_add_port_92_pci
  (dev, g)

/-- Globals before any chipset code has run. -/
def Globals.start : Globals :=
  { shadowbios := 0, shadowbios_write := 0, smram0_host_base := 0, smram0_ram_base := 0,
    smram0_size := 0, calls := [] }

/-- Example values for the access-state constants, used where a concrete run is evaluated. -/
def MemFlags.sample : MemFlags :=
  { MEM_READ_INTERNAL := 0x10, MEM_READ_EXTANY := 0x70,
    MEM_WRITE_INTERNAL := 0x01, MEM_WRITE_EXTANY := 0x07 }

/-- Writing `v` to primary register `a`: the index write to port 0x22 followed by the data
write to port 0x23. -/
def isa_reg_write (K : MemFlags) (s : stpc_t × Globals) (a v : Nat) : stpc_t × Globals :=
  let s1 := stpc_isa_write K s.1 s.2 0x22 a
  stpc_isa_write K s1.1 s1.2 0x23 v

/-! ## Vocabulary of the properties -/

/-- Write mask of primary register `a` as listed for the read-back property. -/
def isa_mask (a : Nat) : Nat :=
  if a = 0x21 then 0xFE
  else if a = 0x22 then 0x7F
  else if a = 0x29 then 0x0F
  else if a = 0x36 then 0x3F
  else if a = 0x28 then 0xE3
  else 0xFF

/-- Access state of the region controlled by bit-pair `b` of the register value `x`: the write
half is internal exactly when bit `2b` is set, the read half is internal exactly when bit
`2b+1` is set, and pass-through (`EXTANY`) otherwise. -/
def shadow_state (K : MemFlags) (x b : Nat) : Nat :=
  (if x.testBit (2 * b) then K.MEM_WRITE_INTERNAL else K.MEM_WRITE_EXTANY) |||
    (if x.testBit (2 * b + 1) then K.MEM_READ_INTERNAL else K.MEM_READ_EXTANY)

/-- The region-state updates the decoding of `isa_regs[0x25..0x28]` asks for: registers 0..2,
bit-pairs 0..3, 16 KiB each from 0xC0000 upwards, then register 3 with bit-pair 0 for the 64 KiB
at 0xF0000. -/
def shadow_updates (K : MemFlags) (regs : Nat → Nat) : List Call :=
  ((List.range 3).flatMap fun r => (List.range 4).map fun b =>
      Call.mem_set_mem_state (0xC0000 + 0x4000 * (4 * r + b)) 0x4000
        (shadow_state K (regs (0x25 + r)) b)) ++
    [Call.mem_set_mem_state 0xF0000 0x10000 (shadow_state K (regs 0x28) 0)]

/-- Accesses the device can receive: PCI configuration writes to the three functions, port
writes to the three windows, and reset. -/
inductive Event where
  | nb_write (func : Int) (addr val : Nat)
  | sb_write (func : Int) (addr val : Nat)
  | ide_write (func : Int) (addr val : Nat)
  | isa_write (addr val : Nat)
  | host_write (addr val : Nat)
  | localbus_write (addr val : Nat)
  | reset

/-- The device and globals after one access; `none` when the access stores outside an array
(only `stpc_localbus_write` can). -/
def step (K : MemFlags) (s : stpc_t × Globals) : Event → Option (stpc_t × Globals)
  | Event.nb_write func addr val => some (stpc_nb_write s.1 func addr val, s.2)
  | Event.sb_write func addr val => some (stpc_sb_write s.1 func addr val, s.2)
  | Event.ide_write func addr val => some (stpc_ide_write s.1 func addr val, s.2)
  | Event.isa_write addr val => some (stpc_isa_write K s.1 s.2 addr val)
  | Event.host_write addr val => some (stpc_host_write s.1 addr val, s.2)
  | Event.localbus_write addr val => (stpc_localbus_write s.1 addr val).map fun d => (d, s.2)
  | Event.reset => some (stpc_reset s.1 s.2)

/-- The device and globals after a sequence of accesses, oldest first. -/
def run (K : MemFlags) (s : stpc_t × Globals) : List Event → Option (stpc_t × Globals)
  | [] => some s
  | e :: es => (step K s e).bind fun s1 => run K s1 es

/-- The identity bytes of the three configuration spaces hold the values stored by
`stpc_setup`: vendor 0x104A, device 0x020A (northbridge) or 0x0210 (southbridge, IDE), class
0x06, 0x06, 0x01. -/
def identity_bytes (conf : Nat → Nat → Nat) : Prop :=
  (conf 0 0x00 = 0x4A ∧ conf 0 0x01 = 0x10 ∧ conf 0 0x02 = 0x0A ∧ conf 0 0x03 = 0x02 ∧
    conf 0 0x0B = 0x06) ∧
  (conf 1 0x00 = 0x4A ∧ conf 1 0x01 = 0x10 ∧ conf 1 0x02 = 0x10 ∧ conf 1 0x03 = 0x02 ∧
    conf 1 0x0B = 0x06) ∧
  (conf 2 0x00 = 0x4A ∧ conf 2 0x01 = 0x10 ∧ conf 2 0x02 = 0x10 ∧ conf 2 0x03 = 0x02 ∧
    conf 2 0x0B = 0x01)

/-- Addresses every function treats as read-only: 0x00-0x04, 0x06-0x0B, 0x0E. -/
def pci_readonly (a : Nat) : Prop :=
  a ≤ 0x04 ∨ (0x06 ≤ a ∧ a ≤ 0x0B) ∨ a = 0x0E

instance (a : Nat) : Decidable (pci_readonly a) := by
  unfold pci_readonly
  infer_instance

/-- A freshly constructed device with the mode register 0x10 set to 0x07 (host window). -/
def mode7_state : stpc_t × Globals :=
  isa_reg_write MemFlags.sample (stpc_init Globals.start) 0x10 0x07

/-- A freshly constructed device with the mode register 0x10 set to 0x06 (local-bus window). -/
def mode6_state : stpc_t × Globals :=
  isa_reg_write MemFlags.sample (stpc_init Globals.start) 0x10 0x06

/-- The shadow regions: bit-pairs 0..3 of registers 0..2 and bit-pair 0 of register 3. -/
def shadow_region (r b : Nat) : Prop := (r < 3 ∧ b < 4) ∨ (r = 3 ∧ b = 0)

/-- Base address of the region of bit-pair `b` of register `r`. -/
def shadow_base (r b : Nat) : Nat :=
  if r = 3 then 0xF0000 else 0xC0000 + 0x4000 * (4 * r + b)

/-- A fresh device after 0x03 has been written to primary register 0x25: write-enable and
read-enable are both set for the region at 0xC0000. -/
def shadow_c0000_state : stpc_t × Globals :=
  isa_reg_write MemFlags.sample (stpc_init Globals.start) 0x25 0x03

/-- A fresh device whose host window has been relocated to port 0x0200. -/
def host_0200_state : stpc_t × Globals :=
  isa_reg_write MemFlags.sample (isa_reg_write MemFlags.sample mode7_state 0x12 0x00) 0x13 0x02

/-- Read-only list of the northbridge function: the shared list and 0x51, 0x53, 0x54. -/
def nb_readonly (a : Nat) : Prop :=
  pci_readonly a ∨ a = 0x51 ∨ a = 0x53 ∨ a = 0x54

/-- Write mask of the northbridge function at a permitted address. -/
def nb_mask (a : Nat) : Nat :=
  if a = 0x05 then 0x01 else if a = 0x50 then 0x1F else if a = 0x52 then 0x70 else 0xFF

/-- Write mask of the southbridge and IDE functions at a permitted address. -/
def sb_mask (a : Nat) : Nat :=
  if a = 0x05 then 0x01 else 0xFF

/-- The write turned `dev` into `dev1` by storing `val` into `pci_conf[k][a]`: every other
byte of every configuration space and every other field is what it was, and the following
read returned `rd = val`. -/
def permitted_write_ok (dev : stpc_t) (k a val : Nat) (dev1 : stpc_t) (rd : Nat) : Prop :=
  dev1 = { dev with pci_conf := dev1.pci_conf } ∧
  (∀ k1 a1, dev1.pci_conf k1 a1 = if k1 = k ∧ a1 = a then val else dev.pci_conf k1 a1) ∧
  rd = val

/-- Address `a` is read-only in the northbridge function beyond the list shared with the
southbridge and IDE functions: it is outside that list and a function-0 write of any value
returns the record unchanged. -/
def nb_further_readonly (a : Nat) : Prop :=
  ¬ pci_readonly a ∧ ∀ (dev : stpc_t) (v : Nat), stpc_nb_write dev 0 a v = dev

/-- The record `dev` with the byte `x` stored into `pci_conf[k][a]`. -/
def with_conf_byte (dev : stpc_t) (k a x : Nat) : stpc_t :=
  { dev with pci_conf := pci_store dev.pci_conf k a x }

/-- Modelled from the spec: the port dispatcher behind `io_sethandler` and
`io_removehandler`, which is not among the sources, as the set of registered
`(base, count)` port ranges of one handler pair.  Registering inserts the range, unregistering
removes it, every other call leaves the set alone. -/
def ports_apply (h : Handler) (S : Finset (Nat × Nat)) : Call → Finset (Nat × Nat)
  | Call.io_sethandler base size h1 => if h1 = h then insert (base, size) S else S
  | Call.io_removehandler base size h1 => if h1 = h then S.erase (base, size) else S
  | _ => S

/-- The ranges of handler pair `h` registered after the calls `cs`, starting from none. -/
def registered (h : Handler) (cs : List Call) : Finset (Nat × Nat) :=
  cs.foldl (ports_apply h) ∅

/-- The one range a window with base `base` should have registered: `(base, 5)` when the base
is nonzero, nothing when it is 0. -/
def window_ranges (base : Nat) : Finset (Nat × Nat) :=
  if base ≠ 0 then {(base, 5)} else ∅

/-- The call is a port registration or unregistration. -/
def Call.is_port : Call → Bool
  | Call.io_sethandler _ _ _ => true
  | Call.io_removehandler _ _ _ => true
  | _ => false

/-- Both windows have exactly the range their base asks for. -/
def ports_inv (s : stpc_t × Globals) : Prop :=
  registered Handler.host s.2.calls = window_ranges s.1.host_base ∧
  registered Handler.localbus s.2.calls = window_ranges s.1.localbus_base

/-- The index register selects one of the shadow-control registers 0x25..0x28. -/
def shadow_index (off : Nat) : Prop :=
  off = 0x25 ∨ off = 0x26 ∨ off = 0x27 ∨ off = 0x28

/-- The call is a region-state update (`mem_set_mem_state`). -/
def Call.is_region : Call → Bool
  | Call.mem_set_mem_state _ _ _ => true
  | _ => false

/-- The call is an SMRAM-visibility call (`mem_set_mem_state_smram`). -/
def Call.is_smram : Call → Bool
  | Call.mem_set_mem_state_smram _ _ _ _ => true
  | _ => false

/-- The call is the address-translation-cache flush (`flushmmucache`). -/
def Call.is_flush : Call → Bool
  | Call.flushmmucache => true
  | _ => false

/-- The calls made between the globals `g` and the later globals `g1`: what `g1.calls` has
beyond the calls already in `g`. -/
def emitted (g g1 : Globals) : List Call :=
  g1.calls.drop g.calls.length

/-- Size of the region of register `r`: 64 KiB for register 3, 16 KiB otherwise. -/
def shadow_size (r : Nat) : Nat :=
  if r = 3 then 0x10000 else 0x4000

/-- Modelled from the spec: the address-space collaborator behind `mem_set_mem_state`, which
is not among the sources, as a map from region `(base, size)` to access state.  A region-state
call overwrites the entry of its region, every other call leaves the map alone. -/
def mem_apply (m : Nat → Nat → Option Nat) : Call → Nat → Nat → Option Nat
  | Call.mem_set_mem_state base size state =>
    fun b s => if b = base ∧ s = size then some state else m b s
  | _ => m

/-- The region-state map after the calls `cs`, oldest first, starting from `m`. -/
def mem_replay (m : Nat → Nat → Option Nat) (cs : List Call) : Nat → Nat → Option Nat :=
  cs.foldl mem_apply m

/-- Every shadow region has in the map `m` the access state the recalculation derives from the
register contents `regs`. -/
def map_derived (K : MemFlags) (m : Nat → Nat → Option Nat) (regs : Nat → Nat) : Prop :=
  ∀ r b, shadow_region r b →
    m (shadow_base r b) (shadow_size r) = some (shadow_state K (regs (0x25 + r)) b)

/-- A fresh device after 0x03 has been written to primary register 0x25 and the device has
then been reset. -/
def shadow_reset_state : stpc_t × Globals :=
  stpc_reset shadow_c0000_state.1 shadow_c0000_state.2

/-- A fresh device after 0x03 has been written to primary register 0x25 and then 0x07 to
register 0x10. -/
def shadow_later_state : stpc_t × Globals :=
  isa_reg_write MemFlags.sample shadow_c0000_state 0x10 0x07

/-- The handler pair a port registration or unregistration names. -/
def Call.port_handler : Call → Option Handler
  | Call.io_sethandler _ _ h => some h
  | Call.io_removehandler _ _ h => some h
  | _ => none

/-- The `(base, size)` region a region-state update names. -/
def Call.region : Call → Option (Nat × Nat)
  | Call.mem_set_mem_state base size _ => some (base, size)
  | _ => none

/-- The address ranges `[base, base + size)` of two regions do not meet. -/
def regions_disjoint (p q : Nat × Nat) : Prop :=
  p.1 + p.2 ≤ q.1 ∨ q.1 + q.2 ≤ p.1

instance (p q : Nat × Nat) : Decidable (regions_disjoint p q) := by
  unfold regions_disjoint
  infer_instance

/-- A fresh device on which the index `a` has been selected through port 0x22. -/
def index_state (a : Nat) : stpc_t × Globals :=
  stpc_isa_write MemFlags.sample (stpc_init Globals.start).1 (stpc_init Globals.start).2 0x22 a

/-- A fresh device in host mode (register 0x10 holds 0x07) with index 0x12 selected. -/
def mode7_index12_state : stpc_t × Globals :=
  stpc_isa_write MemFlags.sample mode7_state.1 mode7_state.2 0x22 0x12

/-- A fresh device in local-bus mode (register 0x10 holds 0x06) with index 0x13 selected. -/
def mode6_index13_state : stpc_t × Globals :=
  stpc_isa_write MemFlags.sample mode6_state.1 mode6_state.2 0x22 0x13

/-- A fresh device whose local-bus window has been relocated to port 0x0200. -/
def localbus_0200_state : stpc_t × Globals :=
  isa_reg_write MemFlags.sample (isa_reg_write MemFlags.sample mode6_state 0x12 0x00) 0x13 0x02

/-! ## Compaq RAM alias window (`src/machine/machine_at_compaq.c`) -/

/-- Calls made by the Compaq handlers into the memory collaborator, with their numeric
arguments; `page` is the index of the `pages[]` entry passed by address. -/
inductive MemCall where
  | addreadlookup (virt phys : Nat)
  | addwritelookup (virt phys : Nat)
  | mem_write_ramb_page (addr val page : Nat)
  | mem_write_ramw_page (addr val page : Nat)
  | mem_write_raml_page (addr val page : Nat)
  | mem_mapping_add (base size ram_offset : Nat)
deriving DecidableEq, Repr

/-- The global array `ram` as the handlers read it: the byte `ram[i]`, and the 16-bit and
32-bit objects at `&ram[i]` (`*(uint16_t *)&ram[i]`, `*(uint32_t *)&ram[i]`), whose value
depends on the byte order of the host and is taken as given. -/
structure RamView where
  b : Nat → Nat
  w : Nat → Nat
  l : Nat → Nat

/-- The function `compaq_read_ram`: value returned and calls made. -/
def compaq_read_ram (ram : RamView) (mem_logical_addr addr : Nat) : Nat × List MemCall :=
  let addr := (addr &&& 0x7ffff) + 0x80000
  (ram.b addr, [MemCall.addreadlookup mem_logical_addr addr])

/-- The function `compaq_read_ramw`. -/
def compaq_read_ramw (ram : RamView) (mem_logical_addr addr : Nat) : Nat × List MemCall :=
  let addr := (addr &&& 0x7ffff) + 0x80000
  (ram.w addr, [MemCall.addreadlookup mem_logical_addr addr])

/-- The function `compaq_read_raml`. -/
def compaq_read_raml (ram : RamView) (mem_logical_addr addr : Nat) : Nat × List MemCall :=
  let addr := (addr &&& 0x7ffff) + 0x80000
  (ram.l addr, [MemCall.addreadlookup mem_logical_addr addr])

/-- The function `compaq_write_ram`: calls made. -/
def compaq_write_ram (mem_logical_addr addr val : Nat) : List MemCall :=
  let addr := (addr &&& 0x7ffff) + 0x80000
  [MemCall.addwritelookup mem_logical_addr addr,
   MemCall.mem_write_ramb_page addr val (addr >>> 12)]

/-- The function `compaq_write_ramw`. -/
def compaq_write_ramw (mem_logical_addr addr val : Nat) : List MemCall :=
  let addr := (addr &&& 0x7ffff) + 0x80000
  [MemCall.addwritelookup mem_logical_addr addr,
   MemCall.mem_write_ramw_page addr val (addr >>> 12)]

/-- The function `compaq_write_raml`. -/
def compaq_write_raml (mem_logical_addr addr val : Nat) : List MemCall :=
  let addr := (addr &&& 0x7ffff) + 0x80000
  [MemCall.addwritelookup mem_logical_addr addr,
   MemCall.mem_write_raml_page addr val (addr >>> 12)]

/-- The function `compaq_init`: the mapping of base 0xFA0000 and size 0x60000, backed by
`ram + 0xa0000`. -/
def compaq_init : List MemCall :=
  [MemCall.mem_mapping_add 0xfa0000 0x60000 0xa0000]

/-- A sample view of `ram` in which every object holds its own offset. -/
def RamView.sample : RamView :=
  { b := fun i => i % 256, w := fun i => i % 65536, l := fun i => i }

/-- A fresh device in local-bus mode after 0xFC has been written to primary register 0x12:
the local-bus window is at port 0x00FC. -/
def localbus_00fc_state : stpc_t × Globals :=
  isa_reg_write MemFlags.sample mode6_state 0x12 0xFC

/-! ## Primary window: write and read back (C1) -/

theorem and_255_of_lt (v : Nat) (hv : v < 256) : v &&& 0xFF = v := by
  have h : v &&& (2 ^ 8 - 1) = v % 2 ^ 8 := Nat.and_pow_two_sub_one_eq_mod v 8
  norm_num at h
  rw [h]
  omega

/-- C1. Primary window write/read-back: selecting register `a` through port 0x22, writing the
byte `v` to port 0x23 and reading port 0x23 returns `v &&& isa_mask a`, for every device
state and every register address: the mask is 0xFE, 0x7F, 0x0F, 0x3F at 0x21, 0x22, 0x29,
0x36, it is 0xE3 at 0x28 and 0xFF everywhere else, including 0x12 and 0x13 whatever the mode
register 0x10 holds. -/
theorem isa_write_read_back (K : MemFlags) (dev : stpc_t) (g : Globals) (a v : Nat)
    (hv : v < 256) :
    stpc_isa_read
      (stpc_isa_write K (stpc_isa_write K dev g 0x22 a).1
        (stpc_isa_write K dev g 0x22 a).2 0x23 v).1 0x23 = v &&& isa_mask a := by
  have h255 := and_255_of_lt v hv
  simp only [stpc_isa_write, stpc_isa_read, isa_write_switch, stpc_remap_host,
    stpc_remap_localbus, isa_mask]
  norm_num
  split_ifs <;> simp_all

/-- Instance of `isa_write_read_back` at register 0x28 and value 0x5A on a freshly set-up
device. -/
theorem isa_write_read_back_witness :
    0x5A < 256 ∧
    stpc_isa_read
      (stpc_isa_write MemFlags.sample
        (stpc_isa_write MemFlags.sample stpc_setup Globals.start 0x22 0x28).1
        (stpc_isa_write MemFlags.sample stpc_setup Globals.start 0x22 0x28).2 0x23 0x5A).1
      0x23 = 0x5A &&& isa_mask 0x28 :=
  ⟨by decide, isa_write_read_back MemFlags.sample stpc_setup Globals.start 0x28 0x5A (by decide)⟩

/-! ## Shadow bit-pair decoding (C2) -/

theorem and_shift_ne_zero (x i : Nat) : (x &&& (1 <<< i) ≠ 0) ↔ x.testBit i = true := by
  rw [Nat.one_shiftLeft, Nat.and_two_pow]
  cases h : x.testBit i <;> simp

theorem recalc_iter_calls (K : MemFlags) (dev : stpc_t) (reg b : Nat) (g : Globals) :
    (recalc_iter K dev reg b g).calls = g.calls ++
      [Call.mem_set_mem_state
        (if reg = 3 then 0xf0000 else 0xc0000 + 0x4000 * (4 * reg + b))
        (if reg = 3 then 0x10000 else 0x4000)
        (shadow_state K (dev.isa_regs (0x25 + reg)) b)] := by
  simp only [recalc_iter, shadow_state, Globals.emit, and_shift_ne_zero, Nat.zero_or,
    Nat.mul_comm b 2, Nat.mul_comm reg 4]
  split_ifs <;> simp_all

theorem recalcmapping_calls (K : MemFlags) (dev : stpc_t) (g : Globals) :
    (stpc_recalcmapping K dev g).calls =
      g.calls ++ (shadow_updates K dev.isa_regs ++ [Call.flushmmucache]) := by
  simp [stpc_recalcmapping, shadow_updates, List.range, List.range.loop, List.foldl,
    recalc_iter_calls, Globals.emit]

/-- C2. Shadow bit-pair decoding: one run of `stpc_recalcmapping` emits, after the calls
already made, exactly the updates of `shadow_updates` (for every register r in 0..2 and
bit-pair b in 0..3 one update of base 0xC0000 + 0x4000*(4r+b), size 0x4000, and for register 3
one update of base 0xF0000, size 0x10000, from bit-pair 0; write half internal iff bit 2b of
`isa_regs[0x25+r]` is set, read half internal iff bit 2b+1 is set) followed by the cache flush.
Scenario: after a reset, writing 0x25 to port 0x22 and 0x05 to port 0x23 emits the update
for 0xC0000, size 0x4000, with write internal and read pass-through, as the first of the
thirteen. -/
theorem recalcmapping_region_updates (K : MemFlags) (dev : stpc_t) (g : Globals) :
    (stpc_recalcmapping K dev g).calls =
        g.calls ++ shadow_updates K dev.isa_regs ++ [Call.flushmmucache] ∧
    (isa_reg_write K (stpc_reset dev g) 0x25 0x05).2.calls =
        (stpc_reset dev g).2.calls ++
          [Call.mem_set_mem_state 0xC0000 0x4000 (K.MEM_WRITE_INTERNAL ||| K.MEM_READ_EXTANY),
           Call.mem_set_mem_state 0xC4000 0x4000
             (K.MEM_WRITE_INTERNAL ||| K.MEM_READ_EXTANY)] ++
          (List.range 10).map (fun n =>
            Call.mem_set_mem_state (0xC8000 + 0x4000 * n) 0x4000
              (K.MEM_WRITE_EXTANY ||| K.MEM_READ_EXTANY)) ++
          [Call.mem_set_mem_state 0xF0000 0x10000 (K.MEM_WRITE_EXTANY ||| K.MEM_READ_EXTANY),
           Call.flushmmucache] := by
  constructor
  · rw [recalcmapping_calls, List.append_assoc]
  · have h1 : Nat.testBit 5 1 = false := by decide
    have h2 : Nat.testBit 5 2 = true := by decide
    have h3 : Nat.testBit 5 3 = false := by decide
    have h4 : Nat.testBit 5 4 = false := by decide
    have h5 : Nat.testBit 5 5 = false := by decide
    have h6 : Nat.testBit 5 6 = false := by decide
    have h7 : Nat.testBit 5 7 = false := by decide
    simp [isa_reg_write, stpc_isa_write, isa_write_switch, stpc_reset, recalcmapping_calls,
      shadow_updates, shadow_state, Globals.emit, List.range, List.range.loop,
      Function.update, h1, h2, h3, h4, h5, h6, h7]

/-! ## PCI functions above 0 (C3) -/

/-- C3. For each of the three PCI functions and every function index `func > 0`, every
address and every value, the read callback returns 0xFF and the write callback returns the
device record unchanged. -/
theorem pci_func_above_zero (dev : stpc_t) (func : Int) (addr val : Nat) (hf : 0 < func) :
    stpc_nb_read dev func addr = 0xFF ∧ stpc_nb_write dev func addr val = dev ∧
    stpc_sb_read dev func addr = 0xFF ∧ stpc_sb_write dev func addr val = dev ∧
    stpc_ide_read dev func addr = 0xFF ∧ stpc_ide_write dev func addr val = dev := by
  simp [stpc_nb_read, stpc_nb_write, stpc_sb_read, stpc_sb_write, stpc_ide_read, stpc_ide_write,
    hf]

/-- Instance of `pci_func_above_zero` at function 1, address 0x40 (a byte `stpc_setup` fills in
for the IDE function), value 0x00. -/
theorem pci_func_above_zero_witness :
    (0 : Int) < 1 ∧
    stpc_nb_read stpc_setup 1 0x40 = 0xFF ∧ stpc_nb_write stpc_setup 1 0x40 0x00 = stpc_setup ∧
    stpc_sb_read stpc_setup 1 0x40 = 0xFF ∧ stpc_sb_write stpc_setup 1 0x40 0x00 = stpc_setup ∧
    stpc_ide_read stpc_setup 1 0x40 = 0xFF ∧
    stpc_ide_write stpc_setup 1 0x40 0x00 = stpc_setup :=
  ⟨by decide, pci_func_above_zero stpc_setup 1 0x40 0x00 (by decide)⟩

/-! ## Immutable PCI identity bytes (C4) -/

theorem pci_readonly_iff (a : Nat) :
    pci_readonly a ↔ (a = 0x00 ∨ a = 0x01 ∨ a = 0x02 ∨ a = 0x03 ∨ a = 0x04 ∨ a = 0x06 ∨
      a = 0x07 ∨ a = 0x08 ∨ a = 0x09 ∨ a = 0x0a ∨ a = 0x0b ∨ a = 0x0e) := by
  unfold pci_readonly
  omega

theorem pci_store_other (conf : Nat → Nat → Nat) (k a v k1 a1 : Nat) (h : ¬ (k1 = k ∧ a1 = a)) :
    pci_store conf k a v k1 a1 = conf k1 a1 := by
  unfold pci_store
  by_cases hk : k1 = k
  · subst hk
    have ha : a1 ≠ a := fun e => h ⟨rfl, e⟩
    simp [Function.update_noteq ha]
  · simp [Function.update_noteq hk]

theorem pci_store_same (conf : Nat → Nat → Nat) (k a v : Nat) :
    pci_store conf k a v k a = v := by
  simp [pci_store]

/-- A function-0 write to a read-only address returns the record unchanged. -/
theorem pci_write_readonly (dev : stpc_t) (func : Int) (a v : Nat) (h : pci_readonly a) :
    stpc_nb_write dev func a v = dev ∧ stpc_sb_write dev func a v = dev ∧
    stpc_ide_write dev func a v = dev := by
  rw [pci_readonly_iff] at h
  refine ⟨?_, ?_, ?_⟩
  · unfold stpc_nb_write
    by_cases h1 : func > 0
    · rw [if_pos h1]
    · rw [if_neg h1, if_pos (by omega)]
  · unfold stpc_sb_write
    by_cases h1 : func > 0
    · rw [if_pos h1]
    · rw [if_neg h1, if_pos h]
  · unfold stpc_ide_write
    by_cases h1 : func > 0
    · rw [if_pos h1]
    · rw [if_neg h1, if_pos h]

theorem pci_write_conf_readonly (dev : stpc_t) (func : Int) (addr val k a : Nat)
    (h : pci_readonly a) :
    (stpc_nb_write dev func addr val).pci_conf k a = dev.pci_conf k a ∧
    (stpc_sb_write dev func addr val).pci_conf k a = dev.pci_conf k a ∧
    (stpc_ide_write dev func addr val).pci_conf k a = dev.pci_conf k a := by
  by_cases hro : pci_readonly addr
  · obtain ⟨h1, h2, h3⟩ := pci_write_readonly dev func addr val hro
    rw [h1, h2, h3]
    exact ⟨rfl, rfl, rfl⟩
  · have hne : a ≠ addr := fun e => hro (e ▸ h)
    refine ⟨?_, ?_, ?_⟩
    · unfold stpc_nb_write
      split_ifs <;> first | rfl | exact pci_store_other _ _ _ _ _ _ (fun e => hne e.2)
    · unfold stpc_sb_write
      split_ifs <;> first | rfl | exact pci_store_other _ _ _ _ _ _ (fun e => hne e.2)
    · unfold stpc_ide_write
      split_ifs <;> first | rfl | exact pci_store_other _ _ _ _ _ _ (fun e => hne e.2)

theorem isa_write_pci_conf (K : MemFlags) (dev : stpc_t) (g : Globals) (addr val : Nat) :
    (stpc_isa_write K dev g addr val).1.pci_conf = dev.pci_conf := by
  simp only [stpc_isa_write, isa_write_switch, stpc_remap_host, stpc_remap_localbus]
  split_ifs <;> rfl

theorem host_write_pci_conf (dev : stpc_t) (addr val : Nat) :
    (stpc_host_write dev addr val).pci_conf = dev.pci_conf := by
  unfold stpc_host_write
  split_ifs <;> rfl

theorem localbus_write_pci_conf (dev d : stpc_t) (addr val : Nat)
    (h : stpc_localbus_write dev addr val = some d) : d.pci_conf = dev.pci_conf := by
  unfold stpc_localbus_write at h
  split_ifs at h <;> simp at h <;> subst h <;> rfl

/-- One access leaves the read-only bytes of every configuration space as they were. -/
theorem step_conf_readonly (K : MemFlags) (s s1 : stpc_t × Globals) (e : Event)
    (h : step K s e = some s1) (k a : Nat) (ha : pci_readonly a) :
    s1.1.pci_conf k a = s.1.pci_conf k a := by
  cases e with
  | nb_write func addr val =>
    simp only [step, Option.some.injEq] at h
    subst h
    exact (pci_write_conf_readonly s.1 func addr val k a ha).1
  | sb_write func addr val =>
    simp only [step, Option.some.injEq] at h
    subst h
    exact (pci_write_conf_readonly s.1 func addr val k a ha).2.1
  | ide_write func addr val =>
    simp only [step, Option.some.injEq] at h
    subst h
    exact (pci_write_conf_readonly s.1 func addr val k a ha).2.2
  | isa_write addr val =>
    simp only [step, Option.some.injEq] at h
    subst h
    rw [isa_write_pci_conf]
  | host_write addr val =>
    simp only [step, Option.some.injEq] at h
    subst h
    show (stpc_host_write s.1 addr val).pci_conf k a = _
    rw [host_write_pci_conf]
  | localbus_write addr val =>
    have h1 : (stpc_localbus_write s.1 addr val).map (fun d => (d, s.2)) = some s1 := h
    cases hd : stpc_localbus_write s.1 addr val with
    | none => rw [hd] at h1; simp at h1
    | some d =>
      rw [hd] at h1
      simp only [Option.map_some', Option.some.injEq] at h1
      subst h1
      show d.pci_conf k a = _
      rw [localbus_write_pci_conf s.1 d addr val hd]
  | reset =>
    simp only [step, Option.some.injEq] at h
    subst h
    rfl

theorem run_conf_readonly (K : MemFlags) (evs : List Event) :
    ∀ (s s1 : stpc_t × Globals), run K s evs = some s1 →
      ∀ k a, pci_readonly a → s1.1.pci_conf k a = s.1.pci_conf k a := by
  induction evs with
  | nil =>
    intro s s1 h k a _
    simp only [run, Option.some.injEq] at h
    rw [h]
  | cons e es ih =>
    intro s s1 h k a ha
    simp only [run, Option.bind_eq_some] at h
    obtain ⟨s2, h2, h3⟩ := h
    rw [ih s2 s1 h3 k a ha, step_conf_readonly K s s2 e h2 k a ha]

theorem setup_identity_bytes : identity_bytes stpc_setup.pci_conf := by
  simp [identity_bytes, stpc_setup, setup_bytes, stpc_zero, pci_store, Function.update]

/-- On the runs in which every access has a result state, the identity bytes keep their setup
values: in every state reached from `stpc_setup` by a sequence of PCI configuration writes,
port writes to the three windows and resets, bytes 0x00-0x03 and 0x0B of each of the three
configuration spaces hold what `stpc_setup` stored; and a write to any of the addresses
0x00-0x04, 0x06-0x0B, 0x0E (function 0 included) returns the record unchanged.  The runs left
out are those with a local-bus data write whose store `localbus_regs[addr]` leaves the
register array. -/
theorem pci_identity_immutable (K : MemFlags) (g : Globals) (evs : List Event)
    (s : stpc_t × Globals) (h : run K (stpc_setup, g) evs = some s) :
    identity_bytes s.1.pci_conf ∧
    ∀ (dev : stpc_t) (a v : Nat), pci_readonly a →
      stpc_nb_write dev 0 a v = dev ∧ stpc_sb_write dev 0 a v = dev ∧
      stpc_ide_write dev 0 a v = dev := by
  refine ⟨?_, fun dev a v ha => pci_write_readonly dev 0 a v ha⟩
  have hs := setup_identity_bytes
  have hk := run_conf_readonly K evs (stpc_setup, g) s h
  unfold identity_bytes at hs ⊢
  rw [hk 0 0x00 (by decide), hk 0 0x01 (by decide), hk 0 0x02 (by decide),
    hk 0 0x03 (by decide), hk 0 0x0B (by decide),
    hk 1 0x00 (by decide), hk 1 0x01 (by decide), hk 1 0x02 (by decide),
    hk 1 0x03 (by decide), hk 1 0x0B (by decide),
    hk 2 0x00 (by decide), hk 2 0x01 (by decide), hk 2 0x02 (by decide),
    hk 2 0x03 (by decide), hk 2 0x0B (by decide)]
  exact hs

/-- Instance of `pci_identity_immutable`: a function-0 write of 0xFF to the northbridge vendor
byte, a write of 0xFF to the IDE class byte, a local-bus index write and a reset, from the
set-up device. -/
theorem pci_identity_immutable_witness :
    run MemFlags.sample (stpc_setup, Globals.start)
        [Event.nb_write 0 0x00 0xFF, Event.ide_write 0 0x0B 0xFF,
         Event.localbus_write 0 0x33, Event.reset] =
      some (stpc_reset { stpc_setup with localbus_offset := 0x33 } Globals.start) ∧
    (identity_bytes
        (stpc_reset { stpc_setup with localbus_offset := 0x33 } Globals.start).1.pci_conf ∧
      ∀ (dev : stpc_t) (a v : Nat), pci_readonly a →
        stpc_nb_write dev 0 a v = dev ∧ stpc_sb_write dev 0 a v = dev ∧
        stpc_ide_write dev 0 a v = dev) :=
  ⟨rfl, pci_identity_immutable MemFlags.sample Globals.start
    [Event.nb_write 0 0x00 0xFF, Event.ide_write 0 0x0B 0xFF,
     Event.localbus_write 0 0x33, Event.reset]
    (stpc_reset { stpc_setup with localbus_offset := 0x33 } Globals.start) rfl⟩

/-- C4, evaluated on the code.  The identity bytes are not out of reach of the port writes.  On
a fresh device, writing 0x06 to primary register 0x10 and 0xFC to register 0x12 places the
local-bus window at port 0x00FC and registers the five ports 0x00FC..0x0100.  A write of 0x00
to the data port 0x0100 then executes the store `localbus_regs[0x100]`, index 256, one
element past the end of the 256-entry array; `pci_conf` is the member of `stpc_t` declared
right after `localbus_regs`, so the byte stored to is `pci_conf[0][0x00]`, the low byte of
the northbridge vendor identifier.  In the embedding the store has no result state and the
run of these five accesses reaches no state. -/
theorem identity_bytes_store_out_of_bounds :
    localbus_00fc_state.1.localbus_base = 0x00FC ∧
    emitted mode6_state.2 localbus_00fc_state.2 =
      [Call.io_removehandler 0 5 Handler.localbus,
       Call.io_sethandler 0x00FC 5 Handler.localbus] ∧
    (0x00FC ≤ 0x0100 ∧ 0x0100 < 0x00FC + 5) ∧
    0x0100 = localbus_00fc_state.1.localbus_base + 4 ∧
    ¬ (0x0100 < 256) ∧
    identity_bytes localbus_00fc_state.1.pci_conf ∧
    stpc_localbus_write localbus_00fc_state.1 0x0100 0x00 = none ∧
    run MemFlags.sample (stpc_init Globals.start)
        [Event.isa_write 0x22 0x10, Event.isa_write 0x23 0x06, Event.isa_write 0x22 0x12,
         Event.isa_write 0x23 0xFC] = some localbus_00fc_state ∧
    run MemFlags.sample (stpc_init Globals.start)
        [Event.isa_write 0x22 0x10, Event.isa_write 0x23 0x06, Event.isa_write 0x22 0x12,
         Event.isa_write 0x23 0xFC, Event.localbus_write 0x0100 0x00] = none := by
  refine ⟨rfl, rfl, ⟨by decide, by decide⟩, rfl, by decide, ?_, rfl, rfl, rfl⟩
  have e : localbus_00fc_state.1.pci_conf = stpc_setup.pci_conf := rfl
  rw [e]
  exact setup_identity_bytes

/-! ## Host and local-bus window relocation (C5) -/

theorem base_lo_lt (x lo : Nat) (hlo : lo < 256) :
    ((x &&& 0xff00) ||| lo) % 65536 = (x &&& 0xff00) ||| lo := by
  apply Nat.mod_eq_of_lt
  have h1 : x &&& 0xff00 < 2 ^ 16 := Nat.and_lt_two_pow x (by norm_num)
  have h2 : lo < 2 ^ 16 := by omega
  exact Nat.or_lt_two_pow h1 h2

theorem base_hi_lt (x hi : Nat) (hhi : hi < 256) :
    ((x &&& 0x00ff) ||| (hi <<< 8)) % 65536 = (x &&& 0x00ff) ||| (hi <<< 8) := by
  apply Nat.mod_eq_of_lt
  have h1 : x &&& 0x00ff < 2 ^ 16 := Nat.and_lt_two_pow x (by norm_num)
  have h2 : hi <<< 8 < 2 ^ 16 := by rw [Nat.shiftLeft_eq]; omega
  exact Nat.or_lt_two_pow h1 h2

theorem base_lo_then_hi (x lo hi : Nat) (hlo : lo < 256) :
    (((x &&& 0xff00) ||| lo) &&& 0x00ff) ||| (hi <<< 8) = (hi <<< 8) ||| lo := by
  rw [Nat.and_distrib_right, Nat.and_assoc, and_255_of_lt lo hlo]
  have h0 : (0xff00 &&& 0x00ff : Nat) = 0 := by decide
  rw [h0, Nat.and_zero, Nat.zero_or, Nat.or_comm]

/-- C5. Window relocation through primary registers 0x12 and 0x13, for every prior base and all
bytes `lo`, `hi`.  With `isa_regs[0x10] == 0x07`, writing `lo` to register 0x12 sets
`host_base` to `(host_base & 0xFF00) | lo`, and then writing `hi` to register 0x13 sets it to
`(hi << 8) | lo`; with `isa_regs[0x10] == 0x06` the same holds for `localbus_base`.
Scenario: on a freshly constructed device, writing 0x07 to register 0x10, 0x00 to 0x12 and
0x02 to 0x13 gives `host_base == 0x0200`. -/
theorem window_relocation (K : MemFlags) (dev : stpc_t) (g : Globals) (lo hi : Nat)
    (hlo : lo < 256) (hhi : hi < 256) :
    (dev.isa_regs 0x10 = 0x07 →
      (isa_reg_write K (dev, g) 0x12 lo).1.host_base = (dev.host_base &&& 0xFF00) ||| lo ∧
      (isa_reg_write K (isa_reg_write K (dev, g) 0x12 lo) 0x13 hi).1.host_base =
        (hi <<< 8) ||| lo) ∧
    (dev.isa_regs 0x10 = 0x06 →
      (isa_reg_write K (dev, g) 0x12 lo).1.localbus_base =
        (dev.localbus_base &&& 0xFF00) ||| lo ∧
      (isa_reg_write K (isa_reg_write K (dev, g) 0x12 lo) 0x13 hi).1.localbus_base =
        (hi <<< 8) ||| lo) ∧
    (isa_reg_write K (isa_reg_write K (isa_reg_write K (stpc_init g) 0x10 0x07) 0x12 0x00)
        0x13 0x02).1.host_base = 0x0200 := by
  refine ⟨fun h7 => ?_, fun h6 => ?_, ?_⟩
  · have hb : ((((dev.host_base &&& 0xff00) ||| lo) &&& 0x00ff) ||| (hi <<< 8)) % 65536 =
        (hi <<< 8) ||| lo := by
      rw [base_hi_lt _ _ hhi, base_lo_then_hi _ _ _ hlo]
    simp [isa_reg_write, stpc_isa_write, isa_write_switch, stpc_remap_host, h7,
      base_lo_lt _ _ hlo, hb]
  · have hb : ((((dev.localbus_base &&& 0xff00) ||| lo) &&& 0x00ff) ||| (hi <<< 8)) % 65536 =
        (hi <<< 8) ||| lo := by
      rw [base_hi_lt _ _ hhi, base_lo_then_hi _ _ _ hlo]
    simp [isa_reg_write, stpc_isa_write, isa_write_switch, stpc_remap_localbus, h6,
      base_lo_lt _ _ hlo, hb]
  · simp [isa_reg_write, stpc_isa_write, isa_write_switch, stpc_remap_host, stpc_init,
      stpc_reset, stpc_setup, stpc_zero, Function.update]

/-- Instances of `window_relocation` with `lo = 0x34`, `hi = 0x12`, on a fresh device in host
mode and on a fresh device in local-bus mode. -/
theorem window_relocation_witness :
    (0x34 < 256 ∧ 0x12 < 256 ∧ mode7_state.1.isa_regs 0x10 = 0x07 ∧
      mode6_state.1.isa_regs 0x10 = 0x06) ∧
    ((isa_reg_write MemFlags.sample (mode7_state.1, mode7_state.2) 0x12 0x34).1.host_base =
        (mode7_state.1.host_base &&& 0xFF00) ||| 0x34 ∧
      (isa_reg_write MemFlags.sample
          (isa_reg_write MemFlags.sample (mode7_state.1, mode7_state.2) 0x12 0x34)
          0x13 0x12).1.host_base = (0x12 <<< 8) ||| 0x34) ∧
    ((isa_reg_write MemFlags.sample (mode6_state.1, mode6_state.2) 0x12 0x34).1.localbus_base =
        (mode6_state.1.localbus_base &&& 0xFF00) ||| 0x34 ∧
      (isa_reg_write MemFlags.sample
          (isa_reg_write MemFlags.sample (mode6_state.1, mode6_state.2) 0x12 0x34)
          0x13 0x12).1.localbus_base = (0x12 <<< 8) ||| 0x34) :=
  ⟨⟨by decide, by decide, rfl, rfl⟩,
    (window_relocation MemFlags.sample mode7_state.1 mode7_state.2 0x34 0x12
      (by decide) (by decide)).1 rfl,
    (window_relocation MemFlags.sample mode6_state.1 mode6_state.2 0x34 0x12
      (by decide) (by decide)).2.1 rfl⟩

/-! ## Reset (C6) -/

/-- C6. Reset postcondition and frame: after `stpc_reset`, `isa_regs[0x7B] == 0xFF` and
`isa_regs[i] == 0` for every other index, while the three configuration spaces, `isa_offset`,
both window bases, both window indices and both window register arrays are what they were. -/
theorem reset_postcondition (dev : stpc_t) (g : Globals) :
    (stpc_reset dev g).1.isa_regs 0x7B = 0xFF ∧
    (∀ i, i ≠ 0x7B → (stpc_reset dev g).1.isa_regs i = 0) ∧
    (stpc_reset dev g).1.pci_conf = dev.pci_conf ∧
    (stpc_reset dev g).1.isa_offset = dev.isa_offset ∧
    (stpc_reset dev g).1.host_base = dev.host_base ∧
    (stpc_reset dev g).1.localbus_base = dev.localbus_base ∧
    (stpc_reset dev g).1.host_offset = dev.host_offset ∧
    (stpc_reset dev g).1.localbus_offset = dev.localbus_offset ∧
    (stpc_reset dev g).1.host_regs = dev.host_regs ∧
    (stpc_reset dev g).1.localbus_regs = dev.localbus_regs := by
  refine ⟨?_, ?_, rfl, rfl, rfl, rfl, rfl, rfl, rfl, rfl⟩
  · simp [stpc_reset]
  · intro i hi
    simp [stpc_reset, Function.update_noteq hi]

/-! ## Local-bus window round trip (C7) -/

/-- C7, evaluated on the code.  On a fresh device whose local-bus window has been placed at
port 0x10 through the primary window, writing index 0x05 to port 0x10 and then 0xAA to the
data port 0x14 stores 0xAA into `localbus_regs[0x14]`, the cell named by the port number, and
leaves `localbus_regs[0x05]` at 0; the read of port 0x14 returns `localbus_regs[0x05]`, which
is 0 and not the 0xAA written. -/
theorem localbus_round_trip_fails :
    (isa_reg_write MemFlags.sample mode6_state 0x12 0x10).1.localbus_base = 0x10 ∧
    ((stpc_localbus_write (isa_reg_write MemFlags.sample mode6_state 0x12 0x10).1 0x10 0x05).bind
        (fun d1 => stpc_localbus_write d1 0x14 0xAA)).map
      (fun d2 => (d2.localbus_offset, stpc_localbus_read d2 0x14, d2.localbus_regs 0x14,
        d2.localbus_regs 0x05)) = some (0x05, 0x00, 0xAA, 0x00) := by
  constructor
  · rfl
  · rfl

/-! ## Summary flags of the recalculation (C8) -/

theorem bios_regions (P : Nat → Nat → Prop) :
    (∃ r b, shadow_region r b ∧ 0xE0000 ≤ shadow_base r b ∧ P r b) ↔
      (P 2 0 ∨ P 2 1 ∨ P 2 2 ∨ P 2 3 ∨ P 3 0) := by
  constructor
  · rintro ⟨r, b, hreg, hbase, hp⟩
    rcases hreg with ⟨hr, hb⟩ | ⟨rfl, rfl⟩
    · have hr2 : r = 2 := by
        unfold shadow_base at hbase
        split_ifs at hbase <;> omega
      subst hr2
      interval_cases b <;> simp [hp]
    · simp [hp]
  · rintro (h | h | h | h | h)
    · exact ⟨2, 0, Or.inl ⟨by decide, by decide⟩, by decide, h⟩
    · exact ⟨2, 1, Or.inl ⟨by decide, by decide⟩, by decide, h⟩
    · exact ⟨2, 2, Or.inl ⟨by decide, by decide⟩, by decide, h⟩
    · exact ⟨2, 3, Or.inl ⟨by decide, by decide⟩, by decide, h⟩
    · exact ⟨3, 0, Or.inr ⟨rfl, rfl⟩, by decide, h⟩

theorem recalc_iter_flags (K : MemFlags) (dev : stpc_t) (reg b : Nat) (g : Globals) :
    (recalc_iter K dev reg b g).shadowbios_write =
      (if (dev.isa_regs (0x25 + reg)).testBit (2 * b) = true ∧
          0xe0000 ≤ (if reg = 3 then 0xf0000 else 0xc0000 + 0x4000 * (4 * reg + b))
        then g.shadowbios_write ||| 1 else g.shadowbios_write) ∧
    (recalc_iter K dev reg b g).shadowbios =
      (if (dev.isa_regs (0x25 + reg)).testBit (2 * b + 1) = true ∧
          0xe0000 ≤ (if reg = 3 then 0xf0000 else 0xc0000 + 0x4000 * (4 * reg + b))
        then g.shadowbios ||| 1 else g.shadowbios) := by
  simp only [recalc_iter, Globals.emit, and_shift_ne_zero, Nat.mul_comm b 2, Nat.mul_comm reg 4]
  constructor <;> split_ifs <;> simp_all

theorem recalcmapping_flags (K : MemFlags) (dev : stpc_t) (g : Globals) :
    (stpc_recalcmapping K dev g).shadowbios_write =
      (if (dev.isa_regs 0x27).testBit 0 = true ∨ (dev.isa_regs 0x27).testBit 2 = true ∨
          (dev.isa_regs 0x27).testBit 4 = true ∨ (dev.isa_regs 0x27).testBit 6 = true ∨
          (dev.isa_regs 0x28).testBit 0 = true then 1 else 0) ∧
    (stpc_recalcmapping K dev g).shadowbios =
      (if (dev.isa_regs 0x27).testBit 1 = true ∨ (dev.isa_regs 0x27).testBit 3 = true ∨
          (dev.isa_regs 0x27).testBit 5 = true ∨ (dev.isa_regs 0x27).testBit 7 = true ∨
          (dev.isa_regs 0x28).testBit 1 = true then 1 else 0) := by
  simp only [stpc_recalcmapping, List.range, List.range.loop, List.foldl, Globals.emit,
    recalc_iter_flags]
  constructor
  · norm_num
    split_ifs <;> simp_all
  · norm_num
    split_ifs <;> simp_all

/-- C8 as stated fails.  With `isa_regs[0x25] == 0x03` the region at 0xC0000 has both its
write-enable and its read-enable bit set, yet after the engine has run both summary flags
are 0: neither flag is 1 iff some region of 0xC0000-0xFFFFF is enabled. -/
theorem summary_flags_claim_fails :
    shadow_region 0 0 ∧ shadow_base 0 0 = 0xC0000 ∧
    (shadow_c0000_state.1.isa_regs 0x25).testBit 0 = true ∧
    (shadow_c0000_state.1.isa_regs 0x25).testBit 1 = true ∧
    (stpc_recalcmapping MemFlags.sample shadow_c0000_state.1
      shadow_c0000_state.2).shadowbios_write = 0 ∧
    (stpc_recalcmapping MemFlags.sample shadow_c0000_state.1
      shadow_c0000_state.2).shadowbios = 0 ∧
    ¬ ((stpc_recalcmapping MemFlags.sample shadow_c0000_state.1
          shadow_c0000_state.2).shadowbios_write = 1 ↔
        ∃ r b, shadow_region r b ∧
          (shadow_c0000_state.1.isa_regs (0x25 + r)).testBit (2 * b) = true) ∧
    ¬ ((stpc_recalcmapping MemFlags.sample shadow_c0000_state.1
          shadow_c0000_state.2).shadowbios = 1 ↔
        ∃ r b, shadow_region r b ∧
          (shadow_c0000_state.1.isa_regs (0x25 + r)).testBit (2 * b + 1) = true) := by
  have hw : (stpc_recalcmapping MemFlags.sample shadow_c0000_state.1
      shadow_c0000_state.2).shadowbios_write = 0 := by rfl
  have hr : (stpc_recalcmapping MemFlags.sample shadow_c0000_state.1
      shadow_c0000_state.2).shadowbios = 0 := by rfl
  have h0 : (shadow_c0000_state.1.isa_regs 0x25).testBit 0 = true := by rfl
  have h1 : (shadow_c0000_state.1.isa_regs 0x25).testBit 1 = true := by rfl
  have hreg : shadow_region 0 0 := Or.inl ⟨by decide, by decide⟩
  refine ⟨hreg, rfl, h0, h1, hw, hr, ?_, ?_⟩
  · rw [hw]
    intro h
    exact absurd (h.mpr ⟨0, 0, hreg, h0⟩) (by decide)
  · rw [hr]
    intro h
    exact absurd (h.mpr ⟨0, 0, hreg, h1⟩) (by decide)

/-- C8, amended.  After `stpc_recalcmapping` the write summary flag `shadowbios_write` is 1 iff
at least one shadow region with base at or above 0xE0000 (the four regions of register 0x27
and the region of register 0x28) has its write-enable bit set, and the read summary flag
`shadowbios` is 1 iff at least one of those regions has its read-enable bit set; otherwise
each flag is 0.  The regions of registers 0x25 and 0x26 do not enter the flags. -/
theorem recalcmapping_summary_flags (K : MemFlags) (dev : stpc_t) (g : Globals) :
    ((stpc_recalcmapping K dev g).shadowbios_write = 1 ↔
      ∃ r b, shadow_region r b ∧ 0xE0000 ≤ shadow_base r b ∧
        (dev.isa_regs (0x25 + r)).testBit (2 * b) = true) ∧
    ((stpc_recalcmapping K dev g).shadowbios_write = 0 ∨
      (stpc_recalcmapping K dev g).shadowbios_write = 1) ∧
    ((stpc_recalcmapping K dev g).shadowbios = 1 ↔
      ∃ r b, shadow_region r b ∧ 0xE0000 ≤ shadow_base r b ∧
        (dev.isa_regs (0x25 + r)).testBit (2 * b + 1) = true) ∧
    ((stpc_recalcmapping K dev g).shadowbios = 0 ∨
      (stpc_recalcmapping K dev g).shadowbios = 1) := by
  obtain ⟨hw, hr⟩ := recalcmapping_flags K dev g
  rw [hw, hr, bios_regions (fun r b => (dev.isa_regs (0x25 + r)).testBit (2 * b) = true),
    bios_regions (fun r b => (dev.isa_regs (0x25 + r)).testBit (2 * b + 1) = true)]
  refine ⟨?_, ?_, ?_, ?_⟩
  · split_ifs with h <;> simp_all
  · split_ifs <;> simp
  · split_ifs with h <;> simp_all
  · split_ifs <;> simp

/-! ## Host window protocol (C9) -/

/-- C9. Host window protocol, for every device state (so for every nonzero base with
`host_base + 4 <= 0xFFFF`): a write of `i` to port `host_base` sets `host_offset` to `i` and
nothing else; a write of `v` to port `host_base + 4` sets `host_regs[host_offset]` to `v` and
nothing else (the handler takes and returns the device record only, it reaches no
collaborator); a read of `host_base` returns `host_offset`, a read of `host_base + 4` returns
`host_regs[host_offset]`; at any other port `p` (in particular `host_base + 1 .. host_base + 3`)
a read returns 0xFF and a write returns the record unchanged. -/
theorem host_window_protocol (dev : stpc_t) (i v p : Nat)
    (hp0 : p ≠ dev.host_base) (hp4 : p ≠ dev.host_base + 4) :
    stpc_host_write dev dev.host_base i = { dev with host_offset := i } ∧
    stpc_host_write dev (dev.host_base + 4) v =
      { dev with host_regs := (stpc_host_write dev (dev.host_base + 4) v).host_regs } ∧
    (∀ j, (stpc_host_write dev (dev.host_base + 4) v).host_regs j =
      if j = dev.host_offset then v else dev.host_regs j) ∧
    stpc_host_read dev dev.host_base = dev.host_offset ∧
    stpc_host_read dev (dev.host_base + 4) = dev.host_regs dev.host_offset ∧
    stpc_host_read dev p = 0xFF ∧
    stpc_host_write dev p v = dev := by
  refine ⟨?_, ?_, ?_, ?_, ?_, ?_, ?_⟩
  · simp [stpc_host_write]
  · simp [stpc_host_write]
  · intro j
    by_cases hj : j = dev.host_offset
    · simp [stpc_host_write, hj]
    · simp [stpc_host_write, hj, Function.update_noteq hj]
  · simp [stpc_host_read]
  · simp [stpc_host_read]
  · simp [stpc_host_read, hp0, hp4]
  · simp [stpc_host_write, hp0, hp4]

/-- Instance of `host_window_protocol` on a device with `host_base == 0x0200`: index 0x11,
value 0xC3, other port 0x0201. -/
theorem host_window_protocol_witness :
    (0x0201 ≠ host_0200_state.1.host_base ∧ 0x0201 ≠ host_0200_state.1.host_base + 4) ∧
    (stpc_host_write host_0200_state.1 host_0200_state.1.host_base 0x11 =
        { host_0200_state.1 with host_offset := 0x11 } ∧
      stpc_host_write host_0200_state.1 (host_0200_state.1.host_base + 4) 0xC3 =
        { host_0200_state.1 with
          host_regs :=
            (stpc_host_write host_0200_state.1 (host_0200_state.1.host_base + 4) 0xC3).host_regs } ∧
      (∀ j, (stpc_host_write host_0200_state.1 (host_0200_state.1.host_base + 4) 0xC3).host_regs j =
        if j = host_0200_state.1.host_offset then 0xC3 else host_0200_state.1.host_regs j) ∧
      stpc_host_read host_0200_state.1 host_0200_state.1.host_base =
        host_0200_state.1.host_offset ∧
      stpc_host_read host_0200_state.1 (host_0200_state.1.host_base + 4) =
        host_0200_state.1.host_regs host_0200_state.1.host_offset ∧
      stpc_host_read host_0200_state.1 0x0201 = 0xFF ∧
      stpc_host_write host_0200_state.1 0x0201 0xC3 = host_0200_state.1) :=
  ⟨⟨by decide, by decide⟩,
    host_window_protocol host_0200_state.1 0x11 0xC3 0x0201 (by decide) (by decide)⟩

/-! ## Permitted PCI writes (C10) -/

theorem pci_store_apply (conf : Nat → Nat → Nat) (k a v k1 a1 : Nat) :
    pci_store conf k a v k1 a1 = if k1 = k ∧ a1 = a then v else conf k1 a1 := by
  by_cases h : k1 = k ∧ a1 = a
  · rw [if_pos h, h.1, h.2, pci_store_same]
  · rw [if_neg h, pci_store_other _ _ _ _ _ _ h]

/-- C10. Permitted PCI writes: for each of the three functions, function index 0, every
address `a` outside that function's read-only list and every byte `v`, the write stores
`v & m(a)` into exactly `pci_conf[k][a]`, changes no other byte of any configuration space
and no other field, and a following read of `a` returns `v & m(a)`; `m(0x05) = 0x01`, and
`m(a) = 0xFF` at every other permitted address of the southbridge and IDE functions (the
northbridge also masks 0x50 with 0x1F and 0x52 with 0x70). -/
theorem pci_permitted_write (dev : stpc_t) (a v : Nat) (hv : v < 256) :
    (¬ nb_readonly a →
      permitted_write_ok dev 0 a (v &&& nb_mask a) (stpc_nb_write dev 0 a v)
        (stpc_nb_read (stpc_nb_write dev 0 a v) 0 a)) ∧
    (¬ pci_readonly a →
      permitted_write_ok dev 1 a (v &&& sb_mask a) (stpc_sb_write dev 0 a v)
        (stpc_sb_read (stpc_sb_write dev 0 a v) 0 a)) ∧
    (¬ pci_readonly a →
      permitted_write_ok dev 2 a (v &&& sb_mask a) (stpc_ide_write dev 0 a v)
        (stpc_ide_read (stpc_ide_write dev 0 a v) 0 a)) := by
  have h255 := and_255_of_lt v hv
  refine ⟨fun h => ?_, fun h => ?_, fun h => ?_⟩
  · have h1 : ¬ (a = 0x00 ∨ a = 0x01 ∨ a = 0x02 ∨ a = 0x03 ∨ a = 0x04 ∨ a = 0x06 ∨
        a = 0x07 ∨ a = 0x08 ∨ a = 0x09 ∨ a = 0x0a ∨ a = 0x0b ∨ a = 0x0e ∨
        a = 0x51 ∨ a = 0x53 ∨ a = 0x54) := by
      unfold nb_readonly pci_readonly at h
      omega
    have hw : stpc_nb_write dev 0 a v =
        { dev with pci_conf := pci_store dev.pci_conf 0 a (v &&& nb_mask a) } := by
      unfold stpc_nb_write nb_mask
      rw [if_neg (by decide), if_neg h1]
      split_ifs <;> simp [h255]
    rw [hw]
    exact ⟨rfl, fun k1 a1 => pci_store_apply _ _ _ _ _ _, by simp [stpc_nb_read, pci_store_same]⟩
  · have h1 := (pci_readonly_iff a).not.mp h
    have hw : stpc_sb_write dev 0 a v =
        { dev with pci_conf := pci_store dev.pci_conf 1 a (v &&& sb_mask a) } := by
      unfold stpc_sb_write sb_mask
      rw [if_neg (by decide), if_neg h1]
      split_ifs <;> simp [h255]
    rw [hw]
    exact ⟨rfl, fun k1 a1 => pci_store_apply _ _ _ _ _ _, by simp [stpc_sb_read, pci_store_same]⟩
  · have h1 := (pci_readonly_iff a).not.mp h
    have hw : stpc_ide_write dev 0 a v =
        { dev with pci_conf := pci_store dev.pci_conf 2 a (v &&& sb_mask a) } := by
      unfold stpc_ide_write sb_mask
      rw [if_neg (by decide), if_neg h1]
      split_ifs <;> simp [h255]
    rw [hw]
    exact ⟨rfl, fun k1 a1 => pci_store_apply _ _ _ _ _ _, by simp [stpc_ide_read, pci_store_same]⟩

/-- Instance of `pci_permitted_write` on the set-up device: the byte 0xFF written to the
command byte 0x05, which every function permits and masks to one bit. -/
theorem pci_permitted_write_witness :
    (0xFF < 256 ∧ ¬ nb_readonly 0x05 ∧ ¬ pci_readonly 0x05) ∧
    permitted_write_ok stpc_setup 0 0x05 (0xFF &&& nb_mask 0x05)
      (stpc_nb_write stpc_setup 0 0x05 0xFF)
      (stpc_nb_read (stpc_nb_write stpc_setup 0 0x05 0xFF) 0 0x05) ∧
    permitted_write_ok stpc_setup 1 0x05 (0xFF &&& sb_mask 0x05)
      (stpc_sb_write stpc_setup 0 0x05 0xFF)
      (stpc_sb_read (stpc_sb_write stpc_setup 0 0x05 0xFF) 0 0x05) ∧
    permitted_write_ok stpc_setup 2 0x05 (0xFF &&& sb_mask 0x05)
      (stpc_ide_write stpc_setup 0 0x05 0xFF)
      (stpc_ide_read (stpc_ide_write stpc_setup 0 0x05 0xFF) 0 0x05) :=
  have hnb : ¬ nb_readonly 0x05 := by unfold nb_readonly pci_readonly; omega
  have hsb : ¬ pci_readonly 0x05 := by decide
  ⟨⟨by decide, hnb, hsb⟩,
    (pci_permitted_write stpc_setup 0x05 0xFF (by decide)).1 hnb,
    (pci_permitted_write stpc_setup 0x05 0xFF (by decide)).2.1 hsb,
    (pci_permitted_write stpc_setup 0x05 0xFF (by decide)).2.2 hsb⟩


/-! ## Host-bridge specifics (C11) -/

theorem nb_write_extra_readonly (a : Nat) (h : a = 0x51 ∨ a = 0x53 ∨ a = 0x54) (dev : stpc_t)
    (func : Int) (v : Nat) : stpc_nb_write dev func a v = dev := by
  unfold stpc_nb_write
  by_cases h1 : func > 0
  · rw [if_pos h1]
  · rw [if_neg h1, if_pos (by omega)]

theorem nb_write_stores (dev : stpc_t) (a v : Nat) (h : ¬ nb_readonly a) :
    stpc_nb_write dev 0 a v =
      with_conf_byte dev 0 a (if a = 0x05 then v &&& 0x01
        else if a = 0x50 then v &&& 0x1f else if a = 0x52 then v &&& 0x70 else v) := by
  have h1 : ¬ (a = 0x00 ∨ a = 0x01 ∨ a = 0x02 ∨ a = 0x03 ∨ a = 0x04 ∨ a = 0x06 ∨
      a = 0x07 ∨ a = 0x08 ∨ a = 0x09 ∨ a = 0x0a ∨ a = 0x0b ∨ a = 0x0e ∨
      a = 0x51 ∨ a = 0x53 ∨ a = 0x54) := by
    unfold nb_readonly pci_readonly at h
    omega
  unfold stpc_nb_write with_conf_byte
  rw [if_neg (by decide), if_neg h1]

theorem sb_write_stores (dev : stpc_t) (a v : Nat) (h : ¬ pci_readonly a) :
    stpc_sb_write dev 0 a v =
      with_conf_byte dev 1 a (if a = 0x05 then v &&& 0x01 else v) := by
  have h1 := (pci_readonly_iff a).not.mp h
  unfold stpc_sb_write with_conf_byte
  rw [if_neg (by decide), if_neg h1]

theorem nb_write_zero_ff (a : Nat) (h : ¬ nb_readonly a) :
    stpc_nb_write stpc_zero 0 a 0xFF ≠ stpc_zero := by
  intro e
  have e1 : (stpc_nb_write stpc_zero 0 a 0xFF).pci_conf 0 a = stpc_zero.pci_conf 0 a := by
    rw [e]
  rw [nb_write_stores _ _ _ h] at e1
  simp only [with_conf_byte, pci_store_same, stpc_zero] at e1
  split_ifs at e1

theorem nb_further_readonly_iff (a : Nat) :
    nb_further_readonly a ↔ a = 0x51 ∨ a = 0x53 ∨ a = 0x54 := by
  constructor
  · rintro ⟨hro, hw⟩
    by_contra hne
    have hnb : ¬ nb_readonly a := by
      unfold nb_readonly
      tauto
    exact nb_write_zero_ff a hnb (hw stpc_zero 0xFF)
  · intro h
    refine ⟨?_, fun dev v => nb_write_extra_readonly a h dev 0 v⟩
    unfold pci_readonly
    omega

/-- C11 as stated fails.  The northbridge write handler has three addresses that are read-only
beyond the list shared with the southbridge and IDE functions, 0x51, 0x53 and 0x54; no two
addresses account for all of them. -/
theorem nb_two_readonly_claim_fails :
    nb_further_readonly 0x51 ∧ nb_further_readonly 0x53 ∧ nb_further_readonly 0x54 ∧
    ¬ ∃ x y : Nat, ∀ a, nb_further_readonly a ↔ a = x ∨ a = y := by
  have h1 : nb_further_readonly 0x51 := (nb_further_readonly_iff _).mpr (by decide)
  have h3 : nb_further_readonly 0x53 := (nb_further_readonly_iff _).mpr (by decide)
  have h4 : nb_further_readonly 0x54 := (nb_further_readonly_iff _).mpr (by decide)
  refine ⟨h1, h3, h4, ?_⟩
  rintro ⟨x, y, h⟩
  have e1 := (h 0x51).mp h1
  have e3 := (h 0x53).mp h3
  have e4 := (h 0x54).mp h4
  omega

/-- C11, amended.  Compared with the read-only list shared by the southbridge and IDE
functions, the northbridge write handler treats exactly three further addresses as entirely
read-only, 0x51, 0x53 and 0x54 (a function-0 write of any value returns the record
unchanged), and masks two further addresses, 0x50 with 0x1F and 0x52 with 0x70, which the
southbridge stores unmasked; at every other address it behaves as the southbridge function:
both discard the write on the shared read-only list and both store the same byte (`v & 0x01`
at 0x05, `v` elsewhere) otherwise, each into its own configuration space. -/
theorem nb_specifics (dev : stpc_t) (v : Nat) :
    (∀ a, nb_further_readonly a ↔ a = 0x51 ∨ a = 0x53 ∨ a = 0x54) ∧
    (stpc_nb_write dev 0 0x50 v = with_conf_byte dev 0 0x50 (v &&& 0x1F) ∧
      stpc_sb_write dev 0 0x50 v = with_conf_byte dev 1 0x50 v) ∧
    (stpc_nb_write dev 0 0x52 v = with_conf_byte dev 0 0x52 (v &&& 0x70) ∧
      stpc_sb_write dev 0 0x52 v = with_conf_byte dev 1 0x52 v) ∧
    (∀ a, ¬ (a = 0x50 ∨ a = 0x51 ∨ a = 0x52 ∨ a = 0x53 ∨ a = 0x54) →
      (pci_readonly a → stpc_nb_write dev 0 a v = dev ∧ stpc_sb_write dev 0 a v = dev) ∧
      (¬ pci_readonly a →
        stpc_nb_write dev 0 a v = with_conf_byte dev 0 a (if a = 0x05 then v &&& 0x01 else v) ∧
        stpc_sb_write dev 0 a v =
          with_conf_byte dev 1 a (if a = 0x05 then v &&& 0x01 else v))) := by
  refine ⟨nb_further_readonly_iff, ⟨?_, ?_⟩, ⟨?_, ?_⟩, ?_⟩
  · rw [nb_write_stores dev 0x50 v (by unfold nb_readonly pci_readonly; omega)]
    rfl
  · rw [sb_write_stores dev 0x50 v (by decide)]
    rfl
  · rw [nb_write_stores dev 0x52 v (by unfold nb_readonly pci_readonly; omega)]
    rfl
  · rw [sb_write_stores dev 0x52 v (by decide)]
    rfl
  · intro a ha
    refine ⟨fun hro => ⟨(pci_write_readonly dev 0 a v hro).1,
      (pci_write_readonly dev 0 a v hro).2.1⟩, fun hro => ⟨?_, sb_write_stores dev a v hro⟩⟩
    have hnb : ¬ nb_readonly a := by
      unfold nb_readonly
      tauto
    rw [nb_write_stores dev a v hnb]
    have h50 : a ≠ 0x50 := fun e => ha (Or.inl e)
    have h52 : a ≠ 0x52 := fun e => ha (Or.inr (Or.inr (Or.inl e)))
    simp only [h50, h52, if_false]

/-- Instance of `nb_specifics` on the set-up device with the byte 0xFF, at the shared
read-only address 0x00 and at the permitted addresses 0x05 and 0x40. -/
theorem nb_specifics_witness :
    (pci_readonly 0x00 ∧ ¬ pci_readonly 0x05 ∧ ¬ pci_readonly 0x40) ∧
    (stpc_nb_write stpc_setup 0 0x00 0xFF = stpc_setup ∧
      stpc_sb_write stpc_setup 0 0x00 0xFF = stpc_setup) ∧
    (stpc_nb_write stpc_setup 0 0x05 0xFF =
        with_conf_byte stpc_setup 0 0x05 (if 0x05 = 0x05 then 0xFF &&& 0x01 else 0xFF) ∧
      stpc_sb_write stpc_setup 0 0x05 0xFF =
        with_conf_byte stpc_setup 1 0x05 (if 0x05 = 0x05 then 0xFF &&& 0x01 else 0xFF)) ∧
    (stpc_nb_write stpc_setup 0 0x40 0xFF =
        with_conf_byte stpc_setup 0 0x40 (if 0x40 = 0x05 then 0xFF &&& 0x01 else 0xFF) ∧
      stpc_sb_write stpc_setup 0 0x40 0xFF =
        with_conf_byte stpc_setup 1 0x40 (if 0x40 = 0x05 then 0xFF &&& 0x01 else 0xFF)) :=
  ⟨⟨by decide, by decide, by decide⟩,
    ((nb_specifics stpc_setup 0xFF).2.2.2 0x00 (by decide)).1 (by decide),
    ((nb_specifics stpc_setup 0xFF).2.2.2 0x05 (by decide)).2 (by decide),
    ((nb_specifics stpc_setup 0xFF).2.2.2 0x40 (by decide)).2 (by decide)⟩

/-! ## Port-window registration discipline (C12) -/

theorem emit_calls (g : Globals) (c : Call) : (g.emit c).calls = g.calls ++ [c] := rfl

theorem registered_append (h : Handler) (cs ds : List Call) :
    registered h (cs ++ ds) = ds.foldl (ports_apply h) (registered h cs) := by
  unfold registered
  rw [List.foldl_append]

theorem ports_foldl_not_port (h : Handler) (ds : List Call) :
    ∀ (S : Finset (Nat × Nat)), (∀ c ∈ ds, c.is_port = false) →
      ds.foldl (ports_apply h) S = S := by
  induction ds with
  | nil => intro S _; rfl
  | cons d ds ih =>
    intro S hd
    have h1 : d.is_port = false := hd d (List.mem_cons_self d ds)
    have h2 : ports_apply h S d = S := by
      cases d <;> simp_all [ports_apply, Call.is_port]
    rw [List.foldl_cons, h2]
    exact ih S (fun c hc => hd c (List.mem_cons_of_mem d hc))

theorem shadow_updates_mem (K : MemFlags) (regs : Nat → Nat) (c : Call)
    (hc : c ∈ shadow_updates K regs) : ∃ b s st, c = Call.mem_set_mem_state b s st := by
  simp only [shadow_updates, List.mem_append, List.mem_flatMap, List.mem_map,
    List.mem_singleton] at hc
  rcases hc with ⟨r, _, b, _, rfl⟩ | rfl
  · exact ⟨_, _, _, rfl⟩
  · exact ⟨_, _, _, rfl⟩

theorem registered_recalc (h : Handler) (K : MemFlags) (dev : stpc_t) (g : Globals) :
    registered h (stpc_recalcmapping K dev g).calls = registered h g.calls := by
  rw [recalcmapping_calls, registered_append]
  apply ports_foldl_not_port
  intro c hc
  rcases List.mem_append.mp hc with h1 | h1
  · obtain ⟨b, s, st, rfl⟩ := shadow_updates_mem K _ c h1
    rfl
  · rw [List.mem_singleton.mp h1]
    rfl

theorem registered_emit (h : Handler) (g : Globals) (c : Call) :
    registered h (g.emit c).calls = ports_apply h (registered h g.calls) c := by
  rw [emit_calls, registered_append]
  rfl

theorem window_ranges_remap (old new : Nat) :
    (if new ≠ 0 then insert (new, 5) ((window_ranges old).erase (old, 5))
      else (window_ranges old).erase (old, 5)) = window_ranges new := by
  have h : (window_ranges old).erase (old, 5) = ∅ := by
    unfold window_ranges
    split_ifs <;> simp
  rw [h]
  unfold window_ranges
  split_ifs <;> simp

theorem remap_host_ports (dev : stpc_t) (g : Globals) (new : Nat)
    (hi : ports_inv (dev, g)) : ports_inv (stpc_remap_host dev g new) := by
  obtain ⟨h1, h2⟩ := hi
  simp only at h1 h2
  have hw := window_ranges_remap dev.host_base new
  unfold ports_inv stpc_remap_host
  by_cases hn : new ≠ 0
  · rw [if_pos hn] at hw
    simp only [if_pos hn, registered_emit, ports_apply, h1, h2, if_true]
    exact ⟨hw, by simp⟩
  · rw [if_neg hn] at hw
    simp only [if_neg hn, registered_emit, ports_apply, h1, h2, if_true]
    exact ⟨hw, by simp⟩

theorem remap_localbus_ports (dev : stpc_t) (g : Globals) (new : Nat)
    (hi : ports_inv (dev, g)) : ports_inv (stpc_remap_localbus dev g new) := by
  obtain ⟨h1, h2⟩ := hi
  simp only at h1 h2
  have hw := window_ranges_remap dev.localbus_base new
  unfold ports_inv stpc_remap_localbus
  by_cases hn : new ≠ 0
  · rw [if_pos hn] at hw
    simp only [if_pos hn, registered_emit, ports_apply, h1, h2, if_true]
    exact ⟨by simp, hw⟩
  · rw [if_neg hn] at hw
    simp only [if_neg hn, registered_emit, ports_apply, h1, h2, if_true]
    exact ⟨by simp, hw⟩

theorem ports_inv_congr (s t : stpc_t × Globals) (hb : t.1.host_base = s.1.host_base)
    (hl : t.1.localbus_base = s.1.localbus_base)
    (hh : registered Handler.host t.2.calls = registered Handler.host s.2.calls)
    (hc : registered Handler.localbus t.2.calls = registered Handler.localbus s.2.calls)
    (hi : ports_inv s) : ports_inv t := by
  unfold ports_inv at hi ⊢
  rw [hb, hl, hh, hc]
  exact hi

theorem isa_write_ports (K : MemFlags) (dev : stpc_t) (g : Globals) (addr val : Nat)
    (hi : ports_inv (dev, g)) : ports_inv (stpc_isa_write K dev g addr val) := by
  unfold stpc_isa_write
  by_cases ha : addr = 0x22
  · rw [if_pos ha]
    exact hi
  · rw [if_neg ha]
    unfold isa_write_switch
    split_ifs <;> first
      | exact hi
      | exact ports_inv_congr (stpc_remap_host dev g _) _ rfl rfl rfl rfl
          (remap_host_ports dev g _ hi)
      | exact ports_inv_congr (stpc_remap_localbus dev g _) _ rfl rfl rfl rfl
          (remap_localbus_ports dev g _ hi)
      | (refine ports_inv_congr (dev, g) _ rfl rfl ?_ ?_ hi <;>
          simp [registered_recalc, stpc_smram_map, registered_emit, ports_apply])

theorem step_ports (K : MemFlags) (s s1 : stpc_t × Globals) (e : Event)
    (h : step K s e = some s1) (hi : ports_inv s) : ports_inv s1 := by
  cases e with
  | nb_write func addr val =>
    simp only [step, Option.some.injEq] at h
    subst h
    refine ports_inv_congr s _ ?_ ?_ rfl rfl hi
    · show (stpc_nb_write s.1 func addr val).host_base = _
      unfold stpc_nb_write
      split_ifs <;> rfl
    · show (stpc_nb_write s.1 func addr val).localbus_base = _
      unfold stpc_nb_write
      split_ifs <;> rfl
  | sb_write func addr val =>
    simp only [step, Option.some.injEq] at h
    subst h
    refine ports_inv_congr s _ ?_ ?_ rfl rfl hi
    · show (stpc_sb_write s.1 func addr val).host_base = _
      unfold stpc_sb_write
      split_ifs <;> rfl
    · show (stpc_sb_write s.1 func addr val).localbus_base = _
      unfold stpc_sb_write
      split_ifs <;> rfl
  | ide_write func addr val =>
    simp only [step, Option.some.injEq] at h
    subst h
    refine ports_inv_congr s _ ?_ ?_ rfl rfl hi
    · show (stpc_ide_write s.1 func addr val).host_base = _
      unfold stpc_ide_write
      split_ifs <;> rfl
    · show (stpc_ide_write s.1 func addr val).localbus_base = _
      unfold stpc_ide_write
      split_ifs <;> rfl
  | isa_write addr val =>
    simp only [step, Option.some.injEq] at h
    subst h
    exact isa_write_ports K s.1 s.2 addr val hi
  | host_write addr val =>
    simp only [step, Option.some.injEq] at h
    subst h
    refine ports_inv_congr s _ ?_ ?_ rfl rfl hi
    · show (stpc_host_write s.1 addr val).host_base = _
      unfold stpc_host_write
      split_ifs <;> rfl
    · show (stpc_host_write s.1 addr val).localbus_base = _
      unfold stpc_host_write
      split_ifs <;> rfl
  | localbus_write addr val =>
    have h1 : (stpc_localbus_write s.1 addr val).map (fun d => (d, s.2)) = some s1 := h
    cases hd : stpc_localbus_write s.1 addr val with
    | none => rw [hd] at h1; simp at h1
    | some d =>
      rw [hd] at h1
      simp only [Option.map_some', Option.some.injEq] at h1
      subst h1
      unfold stpc_localbus_write at hd
      refine ports_inv_congr s _ ?_ ?_ rfl rfl hi
      · show d.host_base = _
        split_ifs at hd <;> simp at hd <;> subst hd <;> rfl
      · show d.localbus_base = _
        split_ifs at hd <;> simp at hd <;> subst hd <;> rfl
  | reset =>
    simp only [step, Option.some.injEq] at h
    subst h
    refine ports_inv_congr s _ rfl rfl ?_ ?_ hi
    · simp [stpc_reset, registered_emit, ports_apply]
    · simp [stpc_reset, registered_emit, ports_apply]

theorem run_ports (K : MemFlags) (evs : List Event) :
    ∀ (s s1 : stpc_t × Globals), run K s evs = some s1 → ports_inv s → ports_inv s1 := by
  induction evs with
  | nil =>
    intro s s1 h hi
    simp only [run, Option.some.injEq] at h
    rw [← h]
    exact hi
  | cons e es ih =>
    intro s s1 h hi
    simp only [run, Option.bind_eq_some] at h
    obtain ⟨s2, h2, h3⟩ := h
    exact ih s2 s1 h3 (step_ports K s s2 e h2 hi)

theorem init_ports (g : Globals) : ports_inv (stpc_init { g with calls := [] }) := by
  constructor <;> rfl

theorem window_ranges_card (base : Nat) : (window_ranges base).card ≤ 1 := by
  unfold window_ranges
  split_ifs <;> simp

/-- C12. Port-window registration discipline, with the port dispatcher as the set of
registered ranges per window.  Every call of `stpc_remap_host(dev, new)` emits the unregister
of `(old host_base, 5)` first, then the register of `(new, 5)` iff `new != 0`, nothing else,
and ends with `host_base == new`; likewise `stpc_remap_localbus`.  Hence in every state
reached from a freshly constructed device by any sequence of accesses (primary-window writes
in particular) each window has at most one registered range: exactly `(base, 5)` when its
base is nonzero and none when the base is 0. -/
theorem port_registration_discipline (K : MemFlags) (dev : stpc_t) (g0 : Globals) (new : Nat)
    (g : Globals) (evs : List Event) (s : stpc_t × Globals)
    (h : run K (stpc_init { g with calls := [] }) evs = some s) :
    ((stpc_remap_host dev g0 new).2.calls =
        g0.calls ++ (Call.io_removehandler dev.host_base 5 Handler.host ::
          (if new ≠ 0 then [Call.io_sethandler new 5 Handler.host] else [])) ∧
      (stpc_remap_host dev g0 new).1.host_base = new) ∧
    ((stpc_remap_localbus dev g0 new).2.calls =
        g0.calls ++ (Call.io_removehandler dev.localbus_base 5 Handler.localbus ::
          (if new ≠ 0 then [Call.io_sethandler new 5 Handler.localbus] else [])) ∧
      (stpc_remap_localbus dev g0 new).1.localbus_base = new) ∧
    (registered Handler.host s.2.calls = window_ranges s.1.host_base ∧
      (registered Handler.host s.2.calls).card ≤ 1) ∧
    (registered Handler.localbus s.2.calls = window_ranges s.1.localbus_base ∧
      (registered Handler.localbus s.2.calls).card ≤ 1) := by
  obtain ⟨hh, hl⟩ := run_ports K evs _ s h (init_ports g)
  refine ⟨⟨?_, rfl⟩, ⟨?_, rfl⟩, ⟨hh, ?_⟩, ⟨hl, ?_⟩⟩
  · unfold stpc_remap_host
    split_ifs <;> simp [Globals.emit]
  · unfold stpc_remap_localbus
    split_ifs <;> simp [Globals.emit]
  · rw [hh]
    exact window_ranges_card _
  · rw [hl]
    exact window_ranges_card _

/-- Instance of `port_registration_discipline`: a fresh device taken to `host_base == 0x0200`
by six primary-window port writes (mode 0x07, low byte 0x00, high byte 0x02), and a further
relocation of the host window of the set-up device to 0x0300. -/
theorem port_registration_discipline_witness :
    run MemFlags.sample (stpc_init { Globals.start with calls := [] })
        [Event.isa_write 0x22 0x10, Event.isa_write 0x23 0x07, Event.isa_write 0x22 0x12,
         Event.isa_write 0x23 0x00, Event.isa_write 0x22 0x13, Event.isa_write 0x23 0x02] =
      some host_0200_state ∧
    ((stpc_remap_host stpc_setup Globals.start 0x0300).2.calls =
        Globals.start.calls ++ (Call.io_removehandler stpc_setup.host_base 5 Handler.host ::
          (if 0x0300 ≠ 0 then [Call.io_sethandler 0x0300 5 Handler.host] else [])) ∧
      (stpc_remap_host stpc_setup Globals.start 0x0300).1.host_base = 0x0300) ∧
    ((stpc_remap_localbus stpc_setup Globals.start 0x0300).2.calls =
        Globals.start.calls ++
          (Call.io_removehandler stpc_setup.localbus_base 5 Handler.localbus ::
            (if 0x0300 ≠ 0 then [Call.io_sethandler 0x0300 5 Handler.localbus] else [])) ∧
      (stpc_remap_localbus stpc_setup Globals.start 0x0300).1.localbus_base = 0x0300) ∧
    (registered Handler.host host_0200_state.2.calls = window_ranges host_0200_state.1.host_base ∧
      (registered Handler.host host_0200_state.2.calls).card ≤ 1) ∧
    (registered Handler.localbus host_0200_state.2.calls =
        window_ranges host_0200_state.1.localbus_base ∧
      (registered Handler.localbus host_0200_state.2.calls).card ≤ 1) :=
  ⟨rfl, port_registration_discipline MemFlags.sample stpc_setup Globals.start 0x0300
    Globals.start
    [Event.isa_write 0x22 0x10, Event.isa_write 0x23 0x07, Event.isa_write 0x22 0x12,
     Event.isa_write 0x23 0x00, Event.isa_write 0x22 0x13, Event.isa_write 0x23 0x02]
    host_0200_state rfl⟩

/-! ## Derived memory map (C13) -/

theorem emitted_of_append (g g1 : Globals) (E : List Call) (h : g1.calls = g.calls ++ E) :
    emitted g g1 = E := by
  unfold emitted
  rw [h, List.drop_left]

/-- A data write while the index selects a shadow-control register: the stored value and the
calls made. -/
theorem isa_write_shadow (K : MemFlags) (dev : stpc_t) (g : Globals) (addr val : Nat)
    (ha : addr ≠ 0x22) (ho : shadow_index dev.isa_offset) :
    (stpc_isa_write K dev g addr val).1.isa_regs =
      Function.update dev.isa_regs dev.isa_offset
        (if dev.isa_offset = 0x28 then val &&& 0xe3 else val) ∧
    (stpc_isa_write K dev g addr val).2.calls =
      g.calls ++ ((if dev.isa_offset = 0x28 then
          [Call.mem_set_mem_state_smram 0 g.smram0_host_base g.smram0_size
            (if (val &&& 0xe3) &&& 0x80 ≠ 0 then 1 else 0)]
        else []) ++
        (shadow_updates K (stpc_isa_write K dev g addr val).1.isa_regs ++
          [Call.flushmmucache])) := by
  unfold shadow_index at ho
  have h12 : dev.isa_offset ≠ 0x12 := by omega
  have h13 : dev.isa_offset ≠ 0x13 := by omega
  have h21 : dev.isa_offset ≠ 0x21 := by omega
  have h22 : dev.isa_offset ≠ 0x22 := by omega
  simp only [stpc_isa_write, isa_write_switch, if_neg ha, if_neg h12, if_neg h13, if_neg h21,
    if_neg h22, if_pos ho]
  by_cases h28 : dev.isa_offset = 0x28
  · simp [h28, recalcmapping_calls, stpc_smram_map, Globals.emit]
  · simp [h28, recalcmapping_calls]

theorem switch_not_shadow (K : MemFlags) (dev : stpc_t) (g : Globals) (val : Nat)
    (ho : ¬ shadow_index dev.isa_offset) :
    (isa_write_switch K dev g val).1.isa_regs = dev.isa_regs ∧
    (isa_write_switch K dev g val).1.isa_offset = dev.isa_offset ∧
    ∃ E, (isa_write_switch K dev g val).2.1.calls = g.calls ++ E ∧
      ∀ c ∈ E, c.is_port = true := by
  unfold shadow_index at ho
  unfold isa_write_switch stpc_remap_host stpc_remap_localbus
  split_ifs <;> refine ⟨rfl, rfl, ?_⟩ <;> first
    | exact ⟨[], (List.append_nil _).symm, fun c hc => absurd hc (List.not_mem_nil c)⟩
    | (refine ⟨_, List.append_assoc _ _ _, ?_⟩
       intro c hc
       simp only [List.mem_append, List.mem_singleton] at hc
       rcases hc with rfl | rfl <;> rfl)
    | (refine ⟨[_], rfl, ?_⟩
       intro c hc
       rw [List.mem_singleton.mp hc]
       rfl)

/-- Any other primary-window write: the shadow-control registers keep their contents and only
port registrations and unregistrations are made. -/
theorem isa_write_not_shadow (K : MemFlags) (dev : stpc_t) (g : Globals) (addr val : Nat)
    (h : addr = 0x22 ∨ ¬ shadow_index dev.isa_offset) :
    (∀ r, r < 4 → (stpc_isa_write K dev g addr val).1.isa_regs (0x25 + r) =
      dev.isa_regs (0x25 + r)) ∧
    ∃ E, (stpc_isa_write K dev g addr val).2.calls = g.calls ++ E ∧
      ∀ c ∈ E, c.is_port = true := by
  by_cases ha : addr = 0x22
  · simp only [stpc_isa_write, if_pos ha]
    exact ⟨fun r _ => trivial, [], by simp, by simp⟩
  · have ho : ¬ shadow_index dev.isa_offset := h.resolve_left ha
    obtain ⟨h1, h2, E, h3, h4⟩ := switch_not_shadow K dev g val ho
    simp only [stpc_isa_write, if_neg ha]
    refine ⟨fun r hr => ?_, E, h3, h4⟩
    have hne : 0x25 + r ≠ dev.isa_offset := by
      unfold shadow_index at ho
      omega
    rw [h1, h2, Function.update_noteq hne]

theorem mem_replay_append (m : Nat → Nat → Option Nat) (cs ds : List Call) :
    mem_replay m (cs ++ ds) = mem_replay (mem_replay m cs) ds := by
  unfold mem_replay
  rw [List.foldl_append]

theorem mem_replay_not_region (ds : List Call) :
    ∀ (m : Nat → Nat → Option Nat), (∀ c ∈ ds, c.is_region = false) → mem_replay m ds = m := by
  induction ds with
  | nil => intro m _; rfl
  | cons d ds ih =>
    intro m hd
    have h1 : d.is_region = false := hd d (List.mem_cons_self d ds)
    have h2 : mem_apply m d = m := by
      cases d <;> simp_all [mem_apply, Call.is_region]
    show mem_replay (mem_apply m d) ds = m
    rw [h2]
    exact ih m (fun c hc => hd c (List.mem_cons_of_mem d hc))

theorem port_not_region (c : Call) (h : c.is_port = true) : c.is_region = false := by
  cases c <;> simp_all [Call.is_port, Call.is_region]

/-- Replaying the updates of one recalculation leaves every shadow region with the state
derived from the registers the recalculation read. -/
theorem replay_shadow_updates (K : MemFlags) (regs : Nat → Nat)
    (m : Nat → Nat → Option Nat) :
    map_derived K (mem_replay m (shadow_updates K regs ++ [Call.flushmmucache])) regs := by
  intro r b hreg
  rcases hreg with ⟨hr, hb⟩ | ⟨rfl, rfl⟩
  · interval_cases r <;> interval_cases b <;>
      simp [mem_replay, mem_apply, shadow_updates, shadow_base, shadow_size, List.range,
        List.range.loop]
  · simp [mem_replay, mem_apply, shadow_updates, shadow_base, shadow_size, List.range,
      List.range.loop]

theorem isa_write_map_shadow (K : MemFlags) (m0 : Nat → Nat → Option Nat) (dev : stpc_t)
    (g : Globals) (addr val : Nat) (ha : addr ≠ 0x22) (ho : shadow_index dev.isa_offset) :
    map_derived K (mem_replay m0 (stpc_isa_write K dev g addr val).2.calls)
      (stpc_isa_write K dev g addr val).1.isa_regs := by
  rw [(isa_write_shadow K dev g addr val ha ho).2, mem_replay_append, mem_replay_append]
  exact replay_shadow_updates K _ _

theorem isa_write_map_other (K : MemFlags) (m0 : Nat → Nat → Option Nat) (dev : stpc_t)
    (g : Globals) (addr val : Nat) (h : addr = 0x22 ∨ ¬ shadow_index dev.isa_offset)
    (hi : map_derived K (mem_replay m0 g.calls) dev.isa_regs) :
    map_derived K (mem_replay m0 (stpc_isa_write K dev g addr val).2.calls)
      (stpc_isa_write K dev g addr val).1.isa_regs := by
  obtain ⟨hregs, E, hE, hport⟩ := isa_write_not_shadow K dev g addr val h
  intro r b hreg
  have hr : r < 4 := by
    rcases hreg with ⟨h1, _⟩ | ⟨h1, _⟩ <;> omega
  rw [hE, mem_replay_append,
    mem_replay_not_region E _ (fun c hc => port_not_region c (hport c hc)), hregs r hr]
  exact hi r b hreg

theorem pci_write_isa_regs (dev : stpc_t) (func : Int) (addr val : Nat) :
    (stpc_nb_write dev func addr val).isa_regs = dev.isa_regs ∧
    (stpc_sb_write dev func addr val).isa_regs = dev.isa_regs ∧
    (stpc_ide_write dev func addr val).isa_regs = dev.isa_regs := by
  refine ⟨?_, ?_, ?_⟩
  · unfold stpc_nb_write
    split_ifs <;> rfl
  · unfold stpc_sb_write
    split_ifs <;> rfl
  · unfold stpc_ide_write
    split_ifs <;> rfl

theorem host_write_isa_regs (dev : stpc_t) (addr val : Nat) :
    (stpc_host_write dev addr val).isa_regs = dev.isa_regs := by
  unfold stpc_host_write
  split_ifs <;> rfl

theorem localbus_write_isa_regs (dev d : stpc_t) (addr val : Nat)
    (h : stpc_localbus_write dev addr val = some d) : d.isa_regs = dev.isa_regs := by
  unfold stpc_localbus_write at h
  split_ifs at h <;> simp at h <;> subst h <;> rfl

/-- An access other than a reset keeps the region-state map in step with the shadow-control
registers. -/
theorem step_map (K : MemFlags) (m0 : Nat → Nat → Option Nat) (s s1 : stpc_t × Globals)
    (e : Event) (hne : e ≠ Event.reset) (h : step K s e = some s1)
    (hi : map_derived K (mem_replay m0 s.2.calls) s.1.isa_regs) :
    map_derived K (mem_replay m0 s1.2.calls) s1.1.isa_regs := by
  cases e with
  | nb_write func addr val =>
    simp only [step, Option.some.injEq] at h
    subst h
    show map_derived K (mem_replay m0 s.2.calls) (stpc_nb_write s.1 func addr val).isa_regs
    rw [(pci_write_isa_regs s.1 func addr val).1]
    exact hi
  | sb_write func addr val =>
    simp only [step, Option.some.injEq] at h
    subst h
    show map_derived K (mem_replay m0 s.2.calls) (stpc_sb_write s.1 func addr val).isa_regs
    rw [(pci_write_isa_regs s.1 func addr val).2.1]
    exact hi
  | ide_write func addr val =>
    simp only [step, Option.some.injEq] at h
    subst h
    show map_derived K (mem_replay m0 s.2.calls) (stpc_ide_write s.1 func addr val).isa_regs
    rw [(pci_write_isa_regs s.1 func addr val).2.2]
    exact hi
  | isa_write addr val =>
    simp only [step, Option.some.injEq] at h
    subst h
    by_cases hc : addr = 0x22 ∨ ¬ shadow_index s.1.isa_offset
    · exact isa_write_map_other K m0 s.1 s.2 addr val hc hi
    · push_neg at hc
      exact isa_write_map_shadow K m0 s.1 s.2 addr val hc.1 hc.2
  | host_write addr val =>
    simp only [step, Option.some.injEq] at h
    subst h
    show map_derived K (mem_replay m0 s.2.calls) (stpc_host_write s.1 addr val).isa_regs
    rw [host_write_isa_regs]
    exact hi
  | localbus_write addr val =>
    have h1 : (stpc_localbus_write s.1 addr val).map (fun d => (d, s.2)) = some s1 := h
    cases hd : stpc_localbus_write s.1 addr val with
    | none => rw [hd] at h1; simp at h1
    | some d =>
      rw [hd] at h1
      simp only [Option.map_some', Option.some.injEq] at h1
      subst h1
      show map_derived K (mem_replay m0 s.2.calls) d.isa_regs
      rw [localbus_write_isa_regs s.1 d addr val hd]
      exact hi
  | reset => exact absurd rfl hne

theorem run_map (K : MemFlags) (m0 : Nat → Nat → Option Nat) (evs : List Event) :
    ∀ (s s1 : stpc_t × Globals), Event.reset ∉ evs → run K s evs = some s1 →
      map_derived K (mem_replay m0 s.2.calls) s.1.isa_regs →
      map_derived K (mem_replay m0 s1.2.calls) s1.1.isa_regs := by
  induction evs with
  | nil =>
    intro s s1 _ h hi
    simp only [run, Option.some.injEq] at h
    rw [← h]
    exact hi
  | cons e es ih =>
    intro s s1 hnr h hi
    simp only [run, Option.bind_eq_some] at h
    obtain ⟨s2, h2, h3⟩ := h
    have he : e ≠ Event.reset := fun e1 => hnr (e1 ▸ List.mem_cons_self e es)
    have hes : Event.reset ∉ es := fun hm => hnr (List.mem_cons_of_mem e hm)
    exact ih s2 s1 hes h3 (step_map K m0 s s2 e he h2 hi)

/-- C13 as stated fails.  A fresh device, a data write of 0x03 to index 0x25 and then a reset:
the sequence contains a data write to a shadow-control register, the region at 0xC0000 still
has the state {write internal, read internal} in the map, and the state derived from the
current (cleared) registers is {write pass-through, read pass-through}. -/
theorem memory_map_claim_fails :
    run MemFlags.sample (stpc_init Globals.start)
        [Event.isa_write 0x22 0x25, Event.isa_write 0x23 0x03, Event.reset] =
      some shadow_reset_state ∧
    shadow_region 0 0 ∧
    mem_replay (fun _ _ => none) shadow_reset_state.2.calls (shadow_base 0 0) (shadow_size 0) =
      some (MemFlags.sample.MEM_WRITE_INTERNAL ||| MemFlags.sample.MEM_READ_INTERNAL) ∧
    shadow_state MemFlags.sample (shadow_reset_state.1.isa_regs (0x25 + 0)) 0 =
      MemFlags.sample.MEM_WRITE_EXTANY ||| MemFlags.sample.MEM_READ_EXTANY ∧
    ¬ map_derived MemFlags.sample (mem_replay (fun _ _ => none) shadow_reset_state.2.calls)
        shadow_reset_state.1.isa_regs := by
  have hreg : shadow_region 0 0 := Or.inl ⟨by decide, by decide⟩
  have hm : mem_replay (fun _ _ => none) shadow_reset_state.2.calls (shadow_base 0 0)
      (shadow_size 0) =
      some (MemFlags.sample.MEM_WRITE_INTERNAL ||| MemFlags.sample.MEM_READ_INTERNAL) := by rfl
  have hs : shadow_state MemFlags.sample (shadow_reset_state.1.isa_regs (0x25 + 0)) 0 =
      MemFlags.sample.MEM_WRITE_EXTANY ||| MemFlags.sample.MEM_READ_EXTANY := by rfl
  refine ⟨rfl, hreg, hm, hs, fun h => ?_⟩
  have h0 := h 0 0 hreg
  rw [hm, hs] at h0
  exact absurd h0 (by decide)

/-- C13, amended.  With the address-space collaborator as a map from region to access state
updated by the region-state calls, starting from any map: take any state (in particular any
state reached from a constructed device) whose index register selects 0x25..0x28, perform a
data write there, and continue with any sequence of accesses that contains no reset.  In the
state reached, every shadow region has in the map the access state that the recalculation
derives from the current `isa_regs[0x25..0x28]`.  After a reset this need not hold: the reset
clears the registers and issues no region-state call. -/
theorem memory_map_invariant (K : MemFlags) (m0 : Nat → Nat → Option Nat)
    (s1 : stpc_t × Globals) (v : Nat) (evs : List Event) (s2 : stpc_t × Globals)
    (ho : shadow_index s1.1.isa_offset) (hnr : Event.reset ∉ evs)
    (h : run K (stpc_isa_write K s1.1 s1.2 0x23 v) evs = some s2) :
    map_derived K (mem_replay m0 s2.2.calls) s2.1.isa_regs :=
  run_map K m0 evs _ s2 hnr h
    (isa_write_map_shadow K m0 s1.1 s1.2 0x23 v (by decide) ho)

/-- Instance of `memory_map_invariant`: on a fresh device with index 0x25 selected, the data
write of 0x03 followed by the two port writes that set register 0x10 to 0x07. -/
theorem memory_map_invariant_witness :
    (shadow_index (stpc_isa_write MemFlags.sample (stpc_init Globals.start).1
        (stpc_init Globals.start).2 0x22 0x25).1.isa_offset ∧
      Event.reset ∉ [Event.isa_write 0x22 0x10, Event.isa_write 0x23 0x07] ∧
      run MemFlags.sample
          (stpc_isa_write MemFlags.sample
            (stpc_isa_write MemFlags.sample (stpc_init Globals.start).1
              (stpc_init Globals.start).2 0x22 0x25).1
            (stpc_isa_write MemFlags.sample (stpc_init Globals.start).1
              (stpc_init Globals.start).2 0x22 0x25).2 0x23 0x03)
          [Event.isa_write 0x22 0x10, Event.isa_write 0x23 0x07] =
        some shadow_later_state) ∧
    map_derived MemFlags.sample (mem_replay (fun _ _ => none) shadow_later_state.2.calls)
      shadow_later_state.1.isa_regs :=
  have ho : shadow_index (stpc_isa_write MemFlags.sample (stpc_init Globals.start).1
      (stpc_init Globals.start).2 0x22 0x25).1.isa_offset := Or.inl rfl
  have hnr : Event.reset ∉ [Event.isa_write 0x22 0x10, Event.isa_write 0x23 0x07] := by simp
  ⟨⟨ho, hnr, rfl⟩,
    memory_map_invariant MemFlags.sample (fun _ _ => none)
      (stpc_isa_write MemFlags.sample (stpc_init Globals.start).1
        (stpc_init Globals.start).2 0x22 0x25)
      0x03 [Event.isa_write 0x22 0x10, Event.isa_write 0x23 0x07] shadow_later_state
      ho hnr rfl⟩

/-! ## Idempotence of the recalculation (C14) -/

theorem mem_replay_congr_key (cs : List Call) :
    ∀ (m1 m2 : Nat → Nat → Option Nat) (b s : Nat),
      ((∃ st, Call.mem_set_mem_state b s st ∈ cs) ∨ m1 b s = m2 b s) →
      mem_replay m1 cs b s = mem_replay m2 cs b s := by
  induction cs with
  | nil =>
    intro m1 m2 b s h
    rcases h with ⟨st, hst⟩ | h
    · exact absurd hst (List.not_mem_nil _)
    · exact h
  | cons c cs ih =>
    intro m1 m2 b s h
    show mem_replay (mem_apply m1 c) cs b s = mem_replay (mem_apply m2 c) cs b s
    apply ih
    rcases h with ⟨st, hst⟩ | h
    · rcases List.mem_cons.mp hst with e | e
      · right
        rw [← e]
        simp [mem_apply]
      · exact Or.inl ⟨st, e⟩
    · right
      cases c <;> simp [mem_apply, h]

theorem mem_replay_no_write (cs : List Call) :
    ∀ (m : Nat → Nat → Option Nat) (b s : Nat),
      (∀ st, Call.mem_set_mem_state b s st ∉ cs) → mem_replay m cs b s = m b s := by
  induction cs with
  | nil => intro m b s _; rfl
  | cons c cs ih =>
    intro m b s h
    show mem_replay (mem_apply m c) cs b s = m b s
    rw [ih (mem_apply m c) b s (fun st hst => h st (List.mem_cons_of_mem c hst))]
    cases c with
    | mem_set_mem_state base size state =>
      have hne : ¬ (b = base ∧ s = size) := by
        rintro ⟨rfl, rfl⟩
        exact h state (List.mem_cons_self _ _)
      simp [mem_apply, hne]
    | _ => rfl

/-- Replaying a list of calls a second time changes no entry of the map. -/
theorem mem_replay_twice (m : Nat → Nat → Option Nat) (cs : List Call) :
    mem_replay (mem_replay m cs) cs = mem_replay m cs := by
  funext b s
  by_cases h : ∃ st, Call.mem_set_mem_state b s st ∈ cs
  · exact mem_replay_congr_key cs _ _ b s (Or.inl h)
  · apply mem_replay_congr_key cs _ _ b s
    right
    exact mem_replay_no_write cs m b s (fun st hst => h ⟨st, hst⟩)

theorem recalc_emitted (K : MemFlags) (dev : stpc_t) (g : Globals) :
    emitted g (stpc_recalcmapping K dev g) =
      shadow_updates K dev.isa_regs ++ [Call.flushmmucache] :=
  emitted_of_append g _ _ (recalcmapping_calls K dev g)

/-- C14. Idempotence of the recalculation engine, for every device state and every initial
region-state map `m0`: the engine only reads the device record, so the record is the same
before, between and after two runs in a row; both runs emit the same calls (the thirteen
region updates and the flush); the region-state map after the second run equals the map after
the first; and the two summary flags are the same after the second run as after the first. -/
theorem recalcmapping_idempotent (K : MemFlags) (dev : stpc_t) (g : Globals)
    (m0 : Nat → Nat → Option Nat) :
    emitted g (stpc_recalcmapping K dev g) =
      shadow_updates K dev.isa_regs ++ [Call.flushmmucache] ∧
    emitted (stpc_recalcmapping K dev g)
        (stpc_recalcmapping K dev (stpc_recalcmapping K dev g)) =
      emitted g (stpc_recalcmapping K dev g) ∧
    mem_replay m0 (stpc_recalcmapping K dev (stpc_recalcmapping K dev g)).calls =
      mem_replay m0 (stpc_recalcmapping K dev g).calls ∧
    (stpc_recalcmapping K dev (stpc_recalcmapping K dev g)).shadowbios =
      (stpc_recalcmapping K dev g).shadowbios ∧
    (stpc_recalcmapping K dev (stpc_recalcmapping K dev g)).shadowbios_write =
      (stpc_recalcmapping K dev g).shadowbios_write := by
  refine ⟨recalc_emitted K dev g, ?_, ?_, ?_, ?_⟩
  · rw [recalc_emitted, recalc_emitted]
  · rw [recalcmapping_calls K dev (stpc_recalcmapping K dev g),
      mem_replay_append m0 (stpc_recalcmapping K dev g).calls, recalcmapping_calls K dev g,
      mem_replay_append m0 g.calls]
    exact mem_replay_twice _ _
  · rw [(recalcmapping_flags K dev _).2, (recalcmapping_flags K dev g).2]
  · rw [(recalcmapping_flags K dev _).1, (recalcmapping_flags K dev g).1]

/-! ## SMRAM forwarding (C15) -/

theorem smram_bit (v : Nat) : ((v &&& 0xe3) &&& 0x80 ≠ 0) ↔ v.testBit 7 = true := by
  have h : (0xe3 &&& 0x80 : Nat) = 1 <<< 7 := by decide
  rw [Nat.and_assoc, h]
  exact and_shift_ne_zero v 7

theorem shadow_updates_kinds (K : MemFlags) (regs : Nat → Nat) (c : Call)
    (hc : c ∈ shadow_updates K regs ++ [Call.flushmmucache]) :
    c.is_smram = false ∧ c.is_port = false := by
  rcases List.mem_append.mp hc with h1 | h1
  · obtain ⟨b, s, st, rfl⟩ := shadow_updates_mem K _ c h1
    exact ⟨rfl, rfl⟩
  · rw [List.mem_singleton.mp h1]
    exact ⟨rfl, rfl⟩

theorem port_kinds (c : Call) (h : c.is_port = true) :
    c.is_smram = false ∧ c.is_region = false ∧ c.is_flush = false := by
  cases c <;> simp_all [Call.is_port, Call.is_region, Call.is_smram, Call.is_flush]

/-- C15. SMRAM forwarding.  A data write of `v` while the index register holds 0x28 emits the
SMRAM-visibility call first, with context 0 and `enabled` equal to bit 7 of `v`, followed by
the region-state updates of the recalculation and the flush, none of which is an
SMRAM-visibility call: the entry point is called exactly once and before every region update.
A data write at any other index emits no SMRAM-visibility call. -/
theorem smram_forwarding (K : MemFlags) (dev : stpc_t) (g : Globals) (v : Nat) :
    (dev.isa_offset = 0x28 →
      emitted g (stpc_isa_write K dev g 0x23 v).2 =
        Call.mem_set_mem_state_smram 0 g.smram0_host_base g.smram0_size
            (if v.testBit 7 = true then 1 else 0) ::
          (shadow_updates K (stpc_isa_write K dev g 0x23 v).1.isa_regs ++
            [Call.flushmmucache]) ∧
      ∀ c ∈ shadow_updates K (stpc_isa_write K dev g 0x23 v).1.isa_regs ++
          [Call.flushmmucache], c.is_smram = false) ∧
    (dev.isa_offset ≠ 0x28 →
      ∀ c ∈ emitted g (stpc_isa_write K dev g 0x23 v).2, c.is_smram = false) := by
  constructor
  · intro h28
    have ho : shadow_index dev.isa_offset := Or.inr (Or.inr (Or.inr h28))
    have hc := (isa_write_shadow K dev g 0x23 v (by decide) ho).2
    rw [if_pos h28] at hc
    refine ⟨?_, fun c hc1 => (shadow_updates_kinds K _ c hc1).1⟩
    rw [emitted_of_append g _ _ hc]
    by_cases hb : v.testBit 7 = true
    · rw [if_pos hb, if_pos ((smram_bit v).mpr hb)]
      rfl
    · rw [if_neg hb, if_neg (fun h => hb ((smram_bit v).mp h))]
      rfl
  · intro h28 c hc
    by_cases ho : shadow_index dev.isa_offset
    · have hcalls := (isa_write_shadow K dev g 0x23 v (by decide) ho).2
      rw [if_neg h28, List.nil_append] at hcalls
      rw [emitted_of_append g _ _ hcalls] at hc
      exact (shadow_updates_kinds K _ c hc).1
    · obtain ⟨_, E, hE, hport⟩ := isa_write_not_shadow K dev g 0x23 v (Or.inr ho)
      rw [emitted_of_append g _ _ hE] at hc
      exact (port_kinds c (hport c hc)).1

/-- Instance of `smram_forwarding`: the byte 0x80 written on a fresh device with index 0x28
selected, and with index 0x25 selected. -/
theorem smram_forwarding_witness :
    ((index_state 0x28).1.isa_offset = 0x28 ∧ (index_state 0x25).1.isa_offset ≠ 0x28) ∧
    (emitted (index_state 0x28).2
        (stpc_isa_write MemFlags.sample (index_state 0x28).1 (index_state 0x28).2 0x23 0x80).2 =
        Call.mem_set_mem_state_smram 0 (index_state 0x28).2.smram0_host_base
            (index_state 0x28).2.smram0_size (if Nat.testBit 0x80 7 = true then 1 else 0) ::
          (shadow_updates MemFlags.sample
              (stpc_isa_write MemFlags.sample (index_state 0x28).1 (index_state 0x28).2
                0x23 0x80).1.isa_regs ++
            [Call.flushmmucache]) ∧
      ∀ c ∈ shadow_updates MemFlags.sample
            (stpc_isa_write MemFlags.sample (index_state 0x28).1 (index_state 0x28).2
              0x23 0x80).1.isa_regs ++
          [Call.flushmmucache], c.is_smram = false) ∧
    (∀ c ∈ emitted (index_state 0x25).2
        (stpc_isa_write MemFlags.sample (index_state 0x25).1 (index_state 0x25).2 0x23 0x80).2,
      c.is_smram = false) :=
  ⟨⟨rfl, by decide⟩,
    (smram_forwarding MemFlags.sample (index_state 0x28).1 (index_state 0x28).2 0x80).1 rfl,
    (smram_forwarding MemFlags.sample (index_state 0x25).1 (index_state 0x25).2 0x80).2
      (by decide)⟩

/-! ## Unconditional re-derivation (C16) -/

theorem shadow_updates_not_flush (K : MemFlags) (regs : Nat → Nat) :
    ∀ c ∈ shadow_updates K regs, c.is_flush = false ∧ c.is_region = true := by
  intro c hc
  obtain ⟨b, s, st, rfl⟩ := shadow_updates_mem K _ c hc
  exact ⟨rfl, rfl⟩

theorem shadow_updates_countP_flush (K : MemFlags) (regs : Nat → Nat) :
    (shadow_updates K regs).countP Call.is_flush = 0 := by
  rw [List.countP_eq_zero]
  intro c hc
  rw [(shadow_updates_not_flush K regs c hc).1]
  decide

/-- C16. Unconditional re-derivation, for every device state and value `v`.  A data write
while the index register holds 0x25, 0x26, 0x27 or 0x28 stores the value (masked with 0xE3 at
0x28) and emits, after the SMRAM call that 0x28 adds, the full sequence of region-state
updates computed from the new register contents, followed by the flush as the last call, the
only flush emitted; nothing depends on the previous contents of the register, so this also
happens when the stored value equals the previous one.  A data write at any other index emits
no region update and no flush. -/
theorem unconditional_rederivation (K : MemFlags) (dev : stpc_t) (g : Globals) (v : Nat) :
    (shadow_index dev.isa_offset →
      (stpc_isa_write K dev g 0x23 v).1.isa_regs =
        Function.update dev.isa_regs dev.isa_offset
          (if dev.isa_offset = 0x28 then v &&& 0xE3 else v) ∧
      emitted g (stpc_isa_write K dev g 0x23 v).2 =
        (if dev.isa_offset = 0x28 then
            [Call.mem_set_mem_state_smram 0 g.smram0_host_base g.smram0_size
              (if (v &&& 0xE3) &&& 0x80 ≠ 0 then 1 else 0)]
          else []) ++
          (shadow_updates K (stpc_isa_write K dev g 0x23 v).1.isa_regs ++
            [Call.flushmmucache]) ∧
      (emitted g (stpc_isa_write K dev g 0x23 v).2).countP Call.is_flush = 1) ∧
    (¬ shadow_index dev.isa_offset →
      ∀ c ∈ emitted g (stpc_isa_write K dev g 0x23 v).2,
        c.is_region = false ∧ c.is_flush = false) := by
  constructor
  · intro ho
    obtain ⟨hregs, hcalls⟩ := isa_write_shadow K dev g 0x23 v (by decide) ho
    have he := emitted_of_append g _ _ hcalls
    refine ⟨hregs, he, ?_⟩
    rw [he, List.countP_append, List.countP_append, shadow_updates_countP_flush]
    split_ifs <;> rfl
  · intro ho c hc
    obtain ⟨_, E, hE, hport⟩ := isa_write_not_shadow K dev g 0x23 v (Or.inr ho)
    rw [emitted_of_append g _ _ hE] at hc
    exact (port_kinds c (hport c hc)).2

/-- Instance of `unconditional_rederivation`: the byte 0x00 written on a fresh device (whose
registers 0x25..0x28 already hold 0x00) with index 0x26 selected, and with index 0x30
selected. -/
theorem unconditional_rederivation_witness :
    (shadow_index (index_state 0x26).1.isa_offset ∧
      ¬ shadow_index (index_state 0x30).1.isa_offset) ∧
    ((stpc_isa_write MemFlags.sample (index_state 0x26).1 (index_state 0x26).2
          0x23 0x00).1.isa_regs =
        Function.update (index_state 0x26).1.isa_regs (index_state 0x26).1.isa_offset
          (if (index_state 0x26).1.isa_offset = 0x28 then 0x00 &&& 0xE3 else 0x00) ∧
      emitted (index_state 0x26).2
          (stpc_isa_write MemFlags.sample (index_state 0x26).1 (index_state 0x26).2
            0x23 0x00).2 =
        (if (index_state 0x26).1.isa_offset = 0x28 then
            [Call.mem_set_mem_state_smram 0 (index_state 0x26).2.smram0_host_base
              (index_state 0x26).2.smram0_size (if (0x00 &&& 0xE3) &&& 0x80 ≠ 0 then 1 else 0)]
          else []) ++
          (shadow_updates MemFlags.sample
              (stpc_isa_write MemFlags.sample (index_state 0x26).1 (index_state 0x26).2
                0x23 0x00).1.isa_regs ++
            [Call.flushmmucache]) ∧
      (emitted (index_state 0x26).2
          (stpc_isa_write MemFlags.sample (index_state 0x26).1 (index_state 0x26).2
            0x23 0x00).2).countP Call.is_flush = 1) ∧
    (∀ c ∈ emitted (index_state 0x30).2
        (stpc_isa_write MemFlags.sample (index_state 0x30).1 (index_state 0x30).2 0x23 0x00).2,
      c.is_region = false ∧ c.is_flush = false) :=
  have h26 : shadow_index (index_state 0x26).1.isa_offset := Or.inr (Or.inl rfl)
  have h30 : ¬ shadow_index (index_state 0x30).1.isa_offset := by
    unfold shadow_index
    have e : (index_state 0x30).1.isa_offset = 0x30 := rfl
    rw [e]
    decide
  ⟨⟨h26, h30⟩,
    (unconditional_rederivation MemFlags.sample (index_state 0x26).1 (index_state 0x26).2
      0x00).1 h26,
    (unconditional_rederivation MemFlags.sample (index_state 0x30).1 (index_state 0x30).2
      0x00).2 h30⟩

/-! ## Mode gating of base-byte writes (C17) -/

theorem switch_base_write (K : MemFlags) (dev : stpc_t) (g : Globals) (v : Nat)
    (ho : dev.isa_offset = 0x12 ∨ dev.isa_offset = 0x13) :
    (dev.isa_regs 0x10 = 0x07 →
      (isa_write_switch K dev g v).1.localbus_base = dev.localbus_base ∧
      (isa_write_switch K dev g v).2.1.calls =
        g.calls ++ (Call.io_removehandler dev.host_base 5 Handler.host ::
          (if (isa_write_switch K dev g v).1.host_base ≠ 0 then
            [Call.io_sethandler (isa_write_switch K dev g v).1.host_base 5 Handler.host]
          else []))) ∧
    (dev.isa_regs 0x10 = 0x06 →
      (isa_write_switch K dev g v).1.host_base = dev.host_base ∧
      (isa_write_switch K dev g v).2.1.calls =
        g.calls ++ (Call.io_removehandler dev.localbus_base 5 Handler.localbus ::
          (if (isa_write_switch K dev g v).1.localbus_base ≠ 0 then
            [Call.io_sethandler (isa_write_switch K dev g v).1.localbus_base 5
              Handler.localbus]
          else []))) ∧
    (dev.isa_regs 0x10 ≠ 0x07 → dev.isa_regs 0x10 ≠ 0x06 →
      (isa_write_switch K dev g v).1.host_base = dev.host_base ∧
      (isa_write_switch K dev g v).1.localbus_base = dev.localbus_base ∧
      (isa_write_switch K dev g v).2.1.calls = g.calls) := by
  unfold isa_write_switch stpc_remap_host stpc_remap_localbus
  rcases ho with ho | ho
  · refine ⟨fun h7 => ?_, fun h6 => ?_, fun h7 h6 => ?_⟩
    · simp only [ho, h7, if_true]
      norm_num
      split_ifs <;> simp [Globals.emit]
    · have h7 : dev.isa_regs 0x10 ≠ 0x07 := by omega
      simp only [ho, h6, if_true]
      norm_num
      split_ifs <;> simp [Globals.emit]
    · simp [ho, h7, h6]
  · refine ⟨fun h7 => ?_, fun h6 => ?_, fun h7 h6 => ?_⟩
    · simp only [ho, h7, if_true]
      norm_num
      split_ifs <;> simp [Globals.emit]
    · have h7 : dev.isa_regs 0x10 ≠ 0x07 := by omega
      simp only [ho, h6, if_true]
      norm_num
      split_ifs <;> simp [Globals.emit]
    · simp [ho, h7, h6]
theorem remap_calls_handler (h : Handler) (old new : Nat) (c : Call)
    (hc : c ∈ Call.io_removehandler old 5 h ::
      (if new ≠ 0 then [Call.io_sethandler new 5 h] else [])) :
    c.port_handler = some h := by
  split_ifs at hc
  · simp only [List.mem_cons, List.mem_singleton, List.not_mem_nil, or_false] at hc
    rcases hc with rfl | rfl <;> rfl
  · simp only [List.mem_cons, List.mem_singleton, List.not_mem_nil, or_false] at hc
    rw [hc]
    rfl

/-- C17. Mode gating of base-byte writes.  For every value `v` written while the index register
holds 0x12 or 0x13: if `isa_regs[0x10] == 0x07`, `localbus_base` is unchanged and the calls
emitted are the unregistration of the old host range followed by the registration of the new
one when the new base is nonzero, all of them host-window port calls; if
`isa_regs[0x10] == 0x06`, `host_base` is unchanged and the calls are the same two for the
local-bus window; for every other value of `isa_regs[0x10]` both bases are unchanged and no
call at all is emitted. -/
theorem mode_gating (K : MemFlags) (dev : stpc_t) (g : Globals) (v : Nat)
    (ho : dev.isa_offset = 0x12 ∨ dev.isa_offset = 0x13) :
    (dev.isa_regs 0x10 = 0x07 →
      (stpc_isa_write K dev g 0x23 v).1.localbus_base = dev.localbus_base ∧
      emitted g (stpc_isa_write K dev g 0x23 v).2 =
        Call.io_removehandler dev.host_base 5 Handler.host ::
          (if (stpc_isa_write K dev g 0x23 v).1.host_base ≠ 0 then
            [Call.io_sethandler (stpc_isa_write K dev g 0x23 v).1.host_base 5 Handler.host]
          else []) ∧
      ∀ c ∈ emitted g (stpc_isa_write K dev g 0x23 v).2,
        c.port_handler = some Handler.host) ∧
    (dev.isa_regs 0x10 = 0x06 →
      (stpc_isa_write K dev g 0x23 v).1.host_base = dev.host_base ∧
      emitted g (stpc_isa_write K dev g 0x23 v).2 =
        Call.io_removehandler dev.localbus_base 5 Handler.localbus ::
          (if (stpc_isa_write K dev g 0x23 v).1.localbus_base ≠ 0 then
            [Call.io_sethandler (stpc_isa_write K dev g 0x23 v).1.localbus_base 5
              Handler.localbus]
          else []) ∧
      ∀ c ∈ emitted g (stpc_isa_write K dev g 0x23 v).2,
        c.port_handler = some Handler.localbus) ∧
    (dev.isa_regs 0x10 ≠ 0x07 → dev.isa_regs 0x10 ≠ 0x06 →
      (stpc_isa_write K dev g 0x23 v).1.host_base = dev.host_base ∧
      (stpc_isa_write K dev g 0x23 v).1.localbus_base = dev.localbus_base ∧
      emitted g (stpc_isa_write K dev g 0x23 v).2 = []) := by
  obtain ⟨h7, h6, hn⟩ := switch_base_write K dev g v ho
  have e1 : (stpc_isa_write K dev g 0x23 v).1.host_base =
      (isa_write_switch K dev g v).1.host_base := rfl
  have e2 : (stpc_isa_write K dev g 0x23 v).1.localbus_base =
      (isa_write_switch K dev g v).1.localbus_base := rfl
  have e3 : (stpc_isa_write K dev g 0x23 v).2.calls =
      (isa_write_switch K dev g v).2.1.calls := rfl
  refine ⟨fun m7 => ?_, fun m6 => ?_, fun n7 n6 => ?_⟩
  · obtain ⟨a, b⟩ := h7 m7
    have he := emitted_of_append g (stpc_isa_write K dev g 0x23 v).2 _ (e3.trans b)
    rw [e1, e2, he]
    exact ⟨a, rfl, fun c hc => remap_calls_handler _ _ _ c hc⟩
  · obtain ⟨a, b⟩ := h6 m6
    have he := emitted_of_append g (stpc_isa_write K dev g 0x23 v).2 _ (e3.trans b)
    rw [e1, e2, he]
    exact ⟨a, rfl, fun c hc => remap_calls_handler _ _ _ c hc⟩
  · obtain ⟨a, b, c⟩ := hn n7 n6
    have he := emitted_of_append g (stpc_isa_write K dev g 0x23 v).2 []
      (by rw [e3, c, List.append_nil])
    rw [e1, e2, he]
    exact ⟨a, b, rfl⟩

/-- Instance of `mode_gating`: the byte 0x40 written to register 0x12 in host mode, the byte
0x03 written to register 0x13 in local-bus mode, and the byte 0x40 written to register 0x12
on a fresh device whose mode register holds 0x00. -/
theorem mode_gating_witness :
    ((mode7_index12_state.1.isa_offset = 0x12 ∨ mode7_index12_state.1.isa_offset = 0x13) ∧
      mode7_index12_state.1.isa_regs 0x10 = 0x07 ∧
      (mode6_index13_state.1.isa_offset = 0x12 ∨ mode6_index13_state.1.isa_offset = 0x13) ∧
      mode6_index13_state.1.isa_regs 0x10 = 0x06 ∧
      ((index_state 0x12).1.isa_offset = 0x12 ∨ (index_state 0x12).1.isa_offset = 0x13) ∧
      (index_state 0x12).1.isa_regs 0x10 ≠ 0x07 ∧ (index_state 0x12).1.isa_regs 0x10 ≠ 0x06) ∧
    ((stpc_isa_write MemFlags.sample mode7_index12_state.1 mode7_index12_state.2 0x23 0x40).1.localbus_base = mode7_index12_state.1.localbus_base ∧
      emitted mode7_index12_state.2 (stpc_isa_write MemFlags.sample mode7_index12_state.1 mode7_index12_state.2 0x23 0x40).2 =
        Call.io_removehandler mode7_index12_state.1.host_base 5 Handler.host ::
          (if (stpc_isa_write MemFlags.sample mode7_index12_state.1 mode7_index12_state.2 0x23 0x40).1.host_base ≠ 0 then
            [Call.io_sethandler (stpc_isa_write MemFlags.sample mode7_index12_state.1 mode7_index12_state.2 0x23 0x40).1.host_base 5 Handler.host]
          else []) ∧
      ∀ c ∈ emitted mode7_index12_state.2 (stpc_isa_write MemFlags.sample mode7_index12_state.1 mode7_index12_state.2 0x23 0x40).2,
        c.port_handler = some Handler.host) ∧
    ((stpc_isa_write MemFlags.sample mode6_index13_state.1 mode6_index13_state.2 0x23 0x03).1.host_base = mode6_index13_state.1.host_base ∧
      emitted mode6_index13_state.2 (stpc_isa_write MemFlags.sample mode6_index13_state.1 mode6_index13_state.2 0x23 0x03).2 =
        Call.io_removehandler mode6_index13_state.1.localbus_base 5 Handler.localbus ::
          (if (stpc_isa_write MemFlags.sample mode6_index13_state.1 mode6_index13_state.2 0x23 0x03).1.localbus_base ≠ 0 then
            [Call.io_sethandler (stpc_isa_write MemFlags.sample mode6_index13_state.1 mode6_index13_state.2 0x23 0x03).1.localbus_base 5 Handler.localbus]
          else []) ∧
      ∀ c ∈ emitted mode6_index13_state.2 (stpc_isa_write MemFlags.sample mode6_index13_state.1 mode6_index13_state.2 0x23 0x03).2,
        c.port_handler = some Handler.localbus) ∧
    ((stpc_isa_write MemFlags.sample (index_state 0x12).1 (index_state 0x12).2 0x23 0x40).1.host_base = (index_state 0x12).1.host_base ∧
      (stpc_isa_write MemFlags.sample (index_state 0x12).1 (index_state 0x12).2 0x23 0x40).1.localbus_base = (index_state 0x12).1.localbus_base ∧
      emitted (index_state 0x12).2 (stpc_isa_write MemFlags.sample (index_state 0x12).1 (index_state 0x12).2 0x23 0x40).2 = []) :=
  have hA : mode7_index12_state.1.isa_offset = 0x12 ∨ mode7_index12_state.1.isa_offset = 0x13 := Or.inl rfl
  have hB : mode6_index13_state.1.isa_offset = 0x12 ∨ mode6_index13_state.1.isa_offset = 0x13 := Or.inr rfl
  have hC : (index_state 0x12).1.isa_offset = 0x12 ∨ (index_state 0x12).1.isa_offset = 0x13 := Or.inl rfl
  have hA7 : mode7_index12_state.1.isa_regs 0x10 = 0x07 := rfl
  have hB6 : mode6_index13_state.1.isa_regs 0x10 = 0x06 := rfl
  have hC0 : (index_state 0x12).1.isa_regs 0x10 = 0x00 := rfl
  have hC7 : (index_state 0x12).1.isa_regs 0x10 ≠ 0x07 := by rw [hC0]; decide
  have hC6 : (index_state 0x12).1.isa_regs 0x10 ≠ 0x06 := by rw [hC0]; decide
  ⟨⟨hA, hA7, hB, hB6, hC, hC7, hC6⟩,
    (mode_gating MemFlags.sample mode7_index12_state.1 mode7_index12_state.2 0x40 hA).1 hA7,
    (mode_gating MemFlags.sample mode6_index13_state.1 mode6_index13_state.2 0x03 hB).2.1 hB6,
    (mode_gating MemFlags.sample (index_state 0x12).1 (index_state 0x12).2 0x40 hC).2.2 hC7 hC6⟩

/-! ## Tiling of the upper memory area (C19) -/

theorem recalc_regions (K : MemFlags) (dev : stpc_t) (g : Globals) :
    (emitted g (stpc_recalcmapping K dev g)).filterMap Call.region =
      (List.range 12).map (fun n => (0xC0000 + 0x4000 * n, 0x4000)) ++ [(0xF0000, 0x10000)] := by
  rw [recalc_emitted]
  simp [shadow_updates, List.range, List.range.loop, Call.region]

/-- C19. Shadow regions tile the upper memory area.  For every device state one run of
`stpc_recalcmapping` emits exactly 13 region-state updates; their regions are, in order, the
twelve 16 KiB regions at 0xC0000 + 0x4000*n for n = 0..11 and then the 64 KiB region at
0xF0000; the address ranges `[base, base + size)` are pairwise disjoint and their union is
exactly 0xC0000..0xFFFFF. -/
theorem shadow_regions_tile (K : MemFlags) (dev : stpc_t) (g : Globals) :
    (emitted g (stpc_recalcmapping K dev g)).filterMap Call.region =
      (List.range 12).map (fun n => (0xC0000 + 0x4000 * n, 0x4000)) ++
        [(0xF0000, 0x10000)] ∧
    (emitted g (stpc_recalcmapping K dev g)).countP Call.is_region = 13 ∧
    List.Pairwise regions_disjoint
      ((emitted g (stpc_recalcmapping K dev g)).filterMap Call.region) ∧
    ∀ x, (∃ p ∈ (emitted g (stpc_recalcmapping K dev g)).filterMap Call.region,
        p.1 ≤ x ∧ x < p.1 + p.2) ↔ (0xC0000 ≤ x ∧ x ≤ 0xFFFFF) := by
  refine ⟨recalc_regions K dev g, ?_, ?_, ?_⟩
  · rw [recalc_emitted]
    simp [shadow_updates, List.range, List.range.loop, Call.is_region]
  · rw [recalc_regions]
    decide
  · intro x
    rw [recalc_regions]
    constructor
    · rintro ⟨p, hp, h1, h2⟩
      simp only [List.mem_append, List.mem_map, List.mem_range, List.mem_singleton] at hp
      rcases hp with ⟨n, hn, rfl⟩ | rfl
      · simp only at h1 h2
        omega
      · simp only at h1 h2
        omega
    · rintro ⟨h1, h2⟩
      by_cases hx : x < 0xF0000
      · refine ⟨(0xC0000 + 0x4000 * ((x - 0xC0000) / 0x4000), 0x4000), ?_, ?_, ?_⟩
        · apply List.mem_append_left
          exact List.mem_map.mpr ⟨(x - 0xC0000) / 0x4000, List.mem_range.mpr (by omega), rfl⟩
        · simp only
          omega
        · simp only
          omega
      · refine ⟨(0xF0000, 0x10000), ?_, ?_, ?_⟩
        · exact List.mem_append_right _ (List.mem_singleton.mpr rfl)
        · simp only
          omega
        · simp only
          omega

/-! ## Compaq RAM alias translation (C18) -/

theorem compaq_translate (addr : Nat) (hlo : 0xFA0000 ≤ addr) (hhi : addr ≤ 0xFFFFFF) :
    (addr &&& 0x7ffff) + 0x80000 = addr - 0xF00000 := by
  have h : addr &&& (2 ^ 19 - 1) = addr % 2 ^ 19 := Nat.and_pow_two_sub_one_eq_mod addr 19
  norm_num at h
  rw [h]
  omega

/-- C18. Compaq RAM alias translation.  For every address `addr` in 0xFA0000..0xFFFFFF, the
range of the mapping `compaq_init` registers (base 0xFA0000, size 0x60000), the translated
address `(addr & 0x7FFFF) + 0x80000` equals `addr - 0xF00000` and lies in 0xA0000..0xFFFFF;
the translation is one-to-one on the window and reaches every address of 0xA0000..0xFFFFF;
and the byte, word and dword read handlers and write handlers all access RAM at that same
translated address. -/
theorem compaq_alias (ram : RamView) (la addr val : Nat)
    (hlo : 0xFA0000 ≤ addr) (hhi : addr ≤ 0xFFFFFF) :
    compaq_init = [MemCall.mem_mapping_add 0xFA0000 0x60000 0xA0000] ∧
    0xFA0000 + 0x60000 = 0xFFFFFF + 1 ∧
    (addr &&& 0x7FFFF) + 0x80000 = addr - 0xF00000 ∧
    (0xA0000 ≤ addr - 0xF00000 ∧ addr - 0xF00000 ≤ 0xFFFFF) ∧
    (∀ addr2, 0xFA0000 ≤ addr2 → addr2 ≤ 0xFFFFFF →
      (addr2 &&& 0x7FFFF) + 0x80000 = (addr &&& 0x7FFFF) + 0x80000 → addr2 = addr) ∧
    (∀ t, 0xA0000 ≤ t → t ≤ 0xFFFFF →
      ∃ a, 0xFA0000 ≤ a ∧ a ≤ 0xFFFFFF ∧ (a &&& 0x7FFFF) + 0x80000 = t) ∧
    compaq_read_ram ram la addr =
      (ram.b (addr - 0xF00000), [MemCall.addreadlookup la (addr - 0xF00000)]) ∧
    compaq_read_ramw ram la addr =
      (ram.w (addr - 0xF00000), [MemCall.addreadlookup la (addr - 0xF00000)]) ∧
    compaq_read_raml ram la addr =
      (ram.l (addr - 0xF00000), [MemCall.addreadlookup la (addr - 0xF00000)]) ∧
    compaq_write_ram la addr val =
      [MemCall.addwritelookup la (addr - 0xF00000),
       MemCall.mem_write_ramb_page (addr - 0xF00000) val ((addr - 0xF00000) >>> 12)] ∧
    compaq_write_ramw la addr val =
      [MemCall.addwritelookup la (addr - 0xF00000),
       MemCall.mem_write_ramw_page (addr - 0xF00000) val ((addr - 0xF00000) >>> 12)] ∧
    compaq_write_raml la addr val =
      [MemCall.addwritelookup la (addr - 0xF00000),
       MemCall.mem_write_raml_page (addr - 0xF00000) val ((addr - 0xF00000) >>> 12)] := by
  have ht := compaq_translate addr hlo hhi
  refine ⟨rfl, rfl, ht, ⟨by omega, by omega⟩, ?_, ?_, ?_, ?_, ?_, ?_, ?_, ?_⟩
  · intro addr2 h1 h2 he
    rw [compaq_translate addr2 h1 h2, ht] at he
    omega
  · intro t h1 h2
    refine ⟨t + 0xF00000, by omega, by omega, ?_⟩
    rw [compaq_translate (t + 0xF00000) (by omega) (by omega)]
    omega
  · simp only [compaq_read_ram, ht]
  · simp only [compaq_read_ramw, ht]
  · simp only [compaq_read_raml, ht]
  · simp only [compaq_write_ram, ht]
  · simp only [compaq_write_ramw, ht]
  · simp only [compaq_write_raml, ht]

/-- Instance of `compaq_alias` at the first address of the window, 0xFA0000, which translates
to 0xA0000. -/
theorem compaq_alias_witness :
    (0xFA0000 ≤ 0xFA0000 ∧ 0xFA0000 ≤ 0xFFFFFF) ∧
    (0xFA0000 &&& 0x7FFFF) + 0x80000 = 0xFA0000 - 0xF00000 ∧
    (0xA0000 ≤ 0xFA0000 - 0xF00000 ∧ 0xFA0000 - 0xF00000 ≤ 0xFFFFF) ∧
    compaq_read_ram RamView.sample 0x1234 0xFA0000 =
      (RamView.sample.b (0xFA0000 - 0xF00000),
        [MemCall.addreadlookup 0x1234 (0xFA0000 - 0xF00000)]) ∧
    compaq_write_raml 0x1234 0xFA0000 0x55 =
      [MemCall.addwritelookup 0x1234 (0xFA0000 - 0xF00000),
       MemCall.mem_write_raml_page (0xFA0000 - 0xF00000) 0x55
         ((0xFA0000 - 0xF00000) >>> 12)] :=
  have h := compaq_alias RamView.sample 0x1234 0xFA0000 0x55 (by decide) (by decide)
  ⟨⟨by decide, by decide⟩, h.2.2.1, h.2.2.2.1, h.2.2.2.2.2.2.1, h.2.2.2.2.2.2.2.2.2.2.2⟩

/-! ## Bounds of the local-bus data write (C20) -/

/-- C20, evaluated on the code.  The data-port write of `stpc_localbus_write` indexes
`localbus_regs` with the port number `localbus_base + 4`, so the store leaves the 256-entry
array exactly when `localbus_base >= 252`.  On a fresh device whose local-bus window has been
placed at port 0x0200 through the primary window, the write of 0xAA to the data port 0x0204
uses index 0x204 = 516 and has no result state. -/
theorem localbus_write_out_of_bounds :
    (∀ (dev : stpc_t) (v : Nat),
      stpc_localbus_write dev (dev.localbus_base + 4) v = none ↔ 252 ≤ dev.localbus_base) ∧
    localbus_0200_state.1.localbus_base = 0x0200 ∧
    ¬ (localbus_0200_state.1.localbus_base + 4 < 256) ∧
    stpc_localbus_write localbus_0200_state.1 (localbus_0200_state.1.localbus_base + 4) 0xAA =
      none := by
  have hg : ∀ (dev : stpc_t) (v : Nat),
      stpc_localbus_write dev (dev.localbus_base + 4) v = none ↔ 252 ≤ dev.localbus_base := by
    intro dev v
    unfold stpc_localbus_write
    rw [if_neg (by omega), if_pos rfl]
    by_cases h : dev.localbus_base + 4 < 256
    · rw [if_pos h]
      constructor
      · intro e
        exact absurd e (by simp)
      · intro e
        omega
    · rw [if_neg h]
      constructor
      · intro _
        omega
      · intro _
        rfl
  have hb : localbus_0200_state.1.localbus_base = 0x0200 := rfl
  refine ⟨hg, hb, ?_, (hg _ _).mpr ?_⟩
  · rw [hb]
    decide
  · rw [hb]
    decide

end Stpc
